import Mathlib

/-!
# ApeHub prediction-market ledger: shallow embedding

Shallow embedding of the token ledger and market settlement engine of the
ApeHubPurpleHell repository, translated statement by statement from

* `src/routes/alpaca.js` (predictions routes: bet placement, admin resolve,
  payout request/review),
* `src/routes/kalshi.js` (Kalshi bet placement and sync-resolutions),
* `src/scripts/resolve-predictions.js` (auto-resolver, `manualResolve`),
* `src/unnamed/part_002` (PostgreSQL schema).

Database rows become structures, tables become lists of rows, timestamps are
abstracted to `Nat` instants, and `DECIMAL` columns read with `parseFloat`
become exact rationals.  A route that runs inside `BEGIN … COMMIT/ROLLBACK`
becomes a function into `Except`: an `Except.error` result is a rolled-back
transaction, so it leaves no trace on the state.  Statements the source issues
outside any transaction (the auto-resolver's market update, every statement of
the Kalshi sync-resolutions route) are embedded as individual state updates,
each of which is its own commit point.
-/

namespace ApeHub

/-- Binary position/outcome.  The routes validate `position` and `outcome`
against `['yes','no']` before touching the database, so the validated value is
embedded as a two-constructor type. -/
inductive Pos where
  | yes
  | no
deriving DecidableEq, Repr

/-- Row of `user_tokens` (schema, src/unnamed/part_002 lines 8-17).
`balance` is an `Int` so that non-negativity is a real property of the
operations, not of the type. -/
structure Account where
  user_email : String
  balance : Int
  total_purchased : Int
  total_won : Int
  total_lost : Int
deriving DecidableEq, Repr

/-- Row of `predictions` (schema lines 47-74), restricted to the fields the
embedded routes read or write.  `status` is the string the source compares
against (`'upcoming' | 'open' | 'closed' | 'resolved'`). -/
structure Prediction where
  id : Nat
  status : String
  outcome : Option Pos
  yes_payout_multiplier : ℚ
  no_payout_multiplier : ℚ
  min_bet : Nat
  max_bet : Nat
  closes_at : Nat
  resolves_at : Nat
  resolution_source : String
  resolved_by : String
  total_yes_tokens : Nat
  total_no_tokens : Nat
  total_bettors : Nat
deriving DecidableEq, Repr

/-- Row of `user_bets` (schema lines 86-101). -/
structure Bet where
  id : Nat
  user_email : String
  prediction_id : Nat
  position : Pos
  tokens_wagered : Nat
  potential_payout : Nat
  payout_multiplier : ℚ
  status : String
  tokens_won : Nat
  payout_processed : Bool
deriving DecidableEq, Repr

/-- Row of `kalshi_bets` (created inline in src/routes/kalshi.js lines
295-314). -/
structure KalshiBet where
  id : Nat
  user_email : String
  kalshi_ticker : String
  event_ticker : String
  market_title : String
  position : Pos
  tokens_wagered : Nat
  potential_payout : Nat
  payout_multiplier : ℚ
  status : String
  kalshi_status : String
  tokens_won : Nat
deriving DecidableEq, Repr

/-- Row of `payout_requests` (schema lines 112-127).  `usd_cents` embeds the
`usd_amount DECIMAL(10,2)` column in cents. -/
structure PayoutRequest where
  id : Nat
  user_email : String
  tokens_amount : Nat
  usd_cents : Nat
  payout_method : String
  payout_destination : String
  status : String
  reviewed_by : String
  transaction_reference : String
  rejection_reason : String
deriving DecidableEq, Repr

/-- The Kalshi oracle's answer to `GET /markets/:ticker`, restricted to the
fields the bet and sync routes read.  `yes_ask` is a price in cents. -/
structure KalshiMarket where
  status : String
  result : Option Pos
  yes_ask : Option Nat
  event_ticker : String
  title : String
deriving DecidableEq, Repr

/-- The durable store: the four ledger-relevant tables plus `kalshi_bets`. -/
structure DbState where
  user_tokens : List Account
  predictions : List Prediction
  user_bets : List Bet
  kalshi_bets : List KalshiBet
  payout_requests : List PayoutRequest
deriving DecidableEq, Repr

/-- Rejection reasons thrown by the embedded routes (each constructor is one
`throw`/`res.status(4xx)` site in the source). -/
inductive Err where
  | missingFields
  | invalidAmount
  | predictionNotFound
  | bettingClosed
  | bettingEnded
  | belowMinBet
  | aboveMaxBet
  | duplicateBet
  | userNotFound
  | insufficientFunds
  | adminRequired
  | alreadyResolved
  | kalshiMarketNotFound
  | kalshiMarketNotOpen
  | belowKalshiMin
  | payoutBelowMinimum
  | invalidMethod
  | invalidStatus
deriving DecidableEq, Repr

/-- `SELECT * FROM user_tokens WHERE user_email = $1` (first matching row). -/
def lookupAccount (accts : List Account) (email : String) : Option Account :=
  accts.find? (fun a => a.user_email == email)

/-- `UPDATE user_tokens SET … WHERE user_email = $1`: applies `f` to every row
whose key matches (the schema's UNIQUE constraint means at most one in a
well-formed state). -/
def updateAccount (accts : List Account) (email : String) (f : Account → Account) :
    List Account :=
  accts.map (fun a => if a.user_email == email then f a else a)

/-- Balance column of the user's `user_tokens` row, if the row exists. -/
def balanceOf (st : DbState) (email : String) : Option Int :=
  (lookupAccount st.user_tokens email).map Account.balance

/-- `SELECT * FROM predictions WHERE id = $1`. -/
def findPrediction (st : DbState) (pid : Nat) : Option Prediction :=
  st.predictions.find? (fun p => p.id == pid)

/-- `Math.floor(tokensWagered * multiplier)` on nonnegative operands. -/
def floorPayout (tokensWagered : Nat) (multiplier : ℚ) : Nat :=
  (Rat.floor ((tokensWagered : ℚ) * multiplier)).toNat

/-- SERIAL primary key: one past the largest id already present. -/
def nextBetId (bets : List Bet) : Nat :=
  bets.foldl (fun m b => max m b.id) 0 + 1

/-- SERIAL primary key for `kalshi_bets`. -/
def nextKalshiBetId (bets : List KalshiBet) : Nat :=
  bets.foldl (fun m b => max m b.id) 0 + 1

/-- SERIAL primary key for `payout_requests`. -/
def nextPayoutId (rs : List PayoutRequest) : Nat :=
  rs.foldl (fun m r => max m r.id) 0 + 1

/-- The write statements of the bet transaction (src/routes/alpaca.js lines
648-673), after every check has passed: debit the account, insert the wager,
bump the chosen volume column and the bettor count. -/
def placeBetCommit (st : DbState) (prediction : Prediction) (email : String)
    (predictionId : Nat) (position : Pos) (amount : Nat) : DbState × Bet :=
  let multiplier := if position = Pos.yes then
    prediction.yes_payout_multiplier else prediction.no_payout_multiplier
  let bet : Bet := {
    id := nextBetId st.user_bets
    user_email := email
    prediction_id := predictionId
    position := position
    tokens_wagered := amount
    potential_payout := floorPayout amount multiplier
    payout_multiplier := multiplier
    status := "active"
    tokens_won := 0
    payout_processed := false }
  ( { st with
      user_tokens := updateAccount st.user_tokens email
        (fun a => { a with balance := a.balance - (amount : Int) }),
      user_bets := st.user_bets ++ [bet],
      predictions := st.predictions.map (fun p =>
        if p.id == predictionId then
          if position = Pos.yes then
            { p with total_yes_tokens := p.total_yes_tokens + amount,
                     total_bettors := p.total_bettors + 1 }
          else
            { p with total_no_tokens := p.total_no_tokens + amount,
                     total_bettors := p.total_bettors + 1 }
        else p) },
    bet )

/-- POST `/api/predictions/bet` (src/routes/alpaca.js lines 575-696): the
whole route body.  The pre-transaction validations come first; everything from
`BEGIN` on is one transaction, so an `Except.error` result is a `ROLLBACK`
and commits nothing.  `now` stands for `new Date()`. -/
def placeBet (st : DbState) (now : Nat) (email : String) (predictionId : Nat)
    (position : Pos) (amount : Nat) : Except Err (DbState × Bet) :=
  if email == "" || predictionId == 0 || amount == 0 then .error .missingFields
  else if amount < 1 then .error .invalidAmount
  else
    match st.predictions.find? (fun p => p.id == predictionId) with
    | none => .error .predictionNotFound
    | some prediction =>
      if prediction.status != "open" then .error .bettingClosed
      else if prediction.closes_at < now then .error .bettingEnded
      else if amount < prediction.min_bet then .error .belowMinBet
      else if prediction.max_bet < amount then .error .aboveMaxBet
      else if st.user_bets.any (fun b =>
          b.prediction_id == predictionId && b.user_email == email) then
        .error .duplicateBet
      else
        match lookupAccount st.user_tokens email with
        | none => .error .userNotFound
        | some user =>
          if user.balance < (amount : Int) then .error .insufficientFunds
          else .ok (placeBetCommit st prediction email predictionId position amount)

/-- Observable state after the bet route returns: `COMMIT` keeps the new
state, `ROLLBACK` leaves the store as it was. -/
def placeBetRun (st : DbState) (now : Nat) (email : String) (predictionId : Nat)
    (position : Pos) (amount : Nat) : DbState :=
  match placeBet st now email predictionId position amount with
  | .ok (st', _) => st'
  | .error _ => st

/-- The write statements of the Kalshi bet transaction (src/routes/kalshi.js
lines 354-369): debit the account and insert the `kalshi_bets` row. -/
def kalshiBetCommit (st : DbState) (market : KalshiMarket) (email ticker : String)
    (position : Pos) (amount : Nat) (multiplier : ℚ) : DbState × KalshiBet :=
  let bet : KalshiBet := {
    id := nextKalshiBetId st.kalshi_bets
    user_email := email
    kalshi_ticker := ticker
    event_ticker := market.event_ticker
    market_title := market.title
    position := position
    tokens_wagered := amount
    potential_payout := floorPayout amount multiplier
    payout_multiplier := multiplier
    status := "active"
    kalshi_status := market.status
    tokens_won := 0 }
  ( { st with
      user_tokens := updateAccount st.user_tokens email
        (fun a => { a with balance := a.balance - (amount : Int) }),
      kalshi_bets := st.kalshi_bets ++ [bet] },
    bet )

/-- POST `/api/kalshi/bet` (src/routes/kalshi.js lines 259-392).  The oracle's
answer to `GET /markets/:ticker` is passed in as `market?` (`none` embeds a
missing `marketData.market`).  The route checks the minimum of 10 tokens but
has no maximum-bet check.  A source quirk kept here: `market.yes_ask ? … : 0.5`
treats a zero ask as absent. -/
def kalshiPlaceBet (st : DbState) (market? : Option KalshiMarket)
    (email ticker : String) (position : Pos) (amount : Nat) :
    Except Err (DbState × KalshiBet) :=
  if email == "" || ticker == "" || amount == 0 then .error .missingFields
  else if amount < 10 then .error .belowKalshiMin
  else
    match market? with
    | none => .error .kalshiMarketNotFound
    | some market =>
      if !(market.status == "open" || market.status == "active") then
        .error .kalshiMarketNotOpen
      else
        let yesPrice : ℚ := match market.yes_ask with
          | some a => if a == 0 then 1/2 else (a : ℚ) / 100
          | none => 1/2
        let noPrice : ℚ := 1 - yesPrice
        let multiplier : ℚ :=
          if position = Pos.yes then (if 0 < yesPrice then 1 / yesPrice else 2)
          else (if 0 < noPrice then 1 / noPrice else 2)
        match lookupAccount st.user_tokens email with
        | none => .error .userNotFound
        | some user =>
          if user.balance < (amount : Int) then .error .insufficientFunds
          else if st.kalshi_bets.any (fun b =>
              b.kalshi_ticker == ticker && b.user_email == email) then
            .error .duplicateBet
          else .ok (kalshiBetCommit st market email ticker position amount multiplier)

/-- Observable state after the Kalshi bet route (COMMIT or ROLLBACK). -/
def kalshiPlaceBetRun (st : DbState) (market? : Option KalshiMarket)
    (email ticker : String) (position : Pos) (amount : Nat) : DbState :=
  match kalshiPlaceBet st market? email ticker position amount with
  | .ok (st', _) => st'
  | .error _ => st

/-- The Settlement Engine's winner credit (identical statement in
src/routes/alpaca.js lines 812-818 and src/scripts/resolve-predictions.js
lines 155-161): `balance = balance + tokensWon`,
`total_won = total_won + (tokensWon - tokens_wagered)` — net profit. -/
def engineCreditWinner (a : Account) (tokensWon tokensWagered : Nat) : Account :=
  { a with balance := a.balance + (tokensWon : Int),
           total_won := a.total_won + ((tokensWon : Int) - (tokensWagered : Int)) }

/-- The Settlement Engine's loser update (alpaca.js lines 820-825 /
resolve-predictions.js lines 165-169): `total_lost = total_lost + wagered`. -/
def engineRecordLoss (a : Account) (tokensWagered : Nat) : Account :=
  { a with total_lost := a.total_lost + (tokensWagered : Int) }

/-- `UPDATE user_bets SET status, tokens_won, payout_processed … WHERE id`. -/
def settleBetRow (bets : List Bet) (betId : Nat) (won : Bool) (tokensWon : Nat) :
    List Bet :=
  bets.map (fun b => if b.id == betId then
    { b with status := if won then "won" else "lost",
             tokens_won := tokensWon,
             payout_processed := true }
    else b)

/-- One iteration of the settlement loop over a snapshot bet — the body shared
verbatim by the admin resolve route (alpaca.js lines 797-827) and
`processBetsForPrediction` (resolve-predictions.js lines 140-172). -/
def settleOneBet (st : DbState) (outcome : Pos) (bet : Bet) : DbState :=
  if bet.position = outcome then
    { st with
      user_bets := settleBetRow st.user_bets bet.id true bet.potential_payout,
      user_tokens := updateAccount st.user_tokens bet.user_email
        (fun a => engineCreditWinner a bet.potential_payout bet.tokens_wagered) }
  else
    { st with
      user_bets := settleBetRow st.user_bets bet.id false 0,
      user_tokens := updateAccount st.user_tokens bet.user_email
        (fun a => engineRecordLoss a bet.tokens_wagered) }

/-- `SELECT * FROM user_bets WHERE prediction_id = $1 AND status = 'active'`. -/
def activeBetsOn (st : DbState) (pid : Nat) : List Bet :=
  st.user_bets.filter (fun b => b.prediction_id == pid && b.status == "active")

/-- Counts returned by the auto-resolver's settlement transaction. -/
structure SettlementReport where
  winners : Nat
  losers : Nat
  totalPaidOut : Nat
  totalBets : Nat
deriving DecidableEq, Repr

/-- `processBetsForPrediction` (src/scripts/resolve-predictions.js lines
125-185): one transaction that settles every still-active wager of the
market.  Within the embedding this function is all-or-nothing; the source's
ROLLBACK on error corresponds to not applying it at all. -/
def processBetsForPrediction (st : DbState) (predictionId : Nat) (outcome : Pos) :
    DbState × SettlementReport :=
  let bets := activeBetsOn st predictionId
  let st' := bets.foldl (fun s b => settleOneBet s outcome b) st
  let winBets := bets.filter (fun b => decide (b.position = outcome))
  ( st',
    { winners := winBets.length
      losers := bets.length - winBets.length
      totalPaidOut := (winBets.map Bet.potential_payout).sum
      totalBets := bets.length } )

/-- `UPDATE predictions SET status='resolved', outcome, resolution_source,
resolved_at, resolved_by WHERE id` — shared by all three resolution paths. -/
def markPredictionResolved (st : DbState) (pid : Nat) (outcome : Pos)
    (source resolvedBy : String) : DbState :=
  { st with predictions := st.predictions.map (fun p =>
      if p.id == pid then
        { p with status := "resolved", outcome := some outcome,
                 resolution_source := source, resolved_by := resolvedBy }
      else p) }

/-- POST `/api/predictions/:id/resolve` (src/routes/alpaca.js lines 748-844):
admin gate, AlreadyResolved guard, market write and the settlement loop, all
inside one transaction.  Returns the number of bets processed. -/
def adminResolve (st : DbState) (id : Nat) (outcome : Pos)
    (adminEmail source : String) : Except Err (DbState × Nat) :=
  if adminEmail == "" then .error .adminRequired
  else
    match findPrediction st id with
    | none => .error .predictionNotFound
    | some prediction =>
      if prediction.status == "resolved" then .error .alreadyResolved
      else
        let st1 := markPredictionResolved st id outcome
          (if source == "" then "Manual resolution" else source) adminEmail
        let bets := activeBetsOn st1 id
        let st2 := bets.foldl (fun s b => settleOneBet s outcome b) st1
        .ok (st2, bets.length)

/-- Observable state after the admin resolve route (COMMIT or ROLLBACK). -/
def adminResolveRun (st : DbState) (id : Nat) (outcome : Pos)
    (adminEmail source : String) : DbState :=
  match adminResolve st id outcome adminEmail source with
  | .ok (st', _) => st'
  | .error _ => st

/-- `manualResolve` (src/scripts/resolve-predictions.js lines 275-298): writes
the market row — with no check of the current status — and then runs the
settlement transaction.  The only throw in the source is the `['yes','no']`
outcome validation, embedded by the `Pos` type, so the helper always
succeeds. -/
def manualResolve (st : DbState) (predictionId : Nat) (outcome : Pos)
    (adminEmail source : String) : DbState × SettlementReport :=
  let st1 := markPredictionResolved st predictionId outcome source adminEmail
  processBetsForPrediction st1 predictionId outcome

/-- The auto-resolver's market update (src/scripts/resolve-predictions.js
lines 236-245): a single `pool.query` outside any transaction, so it commits
on its own, before the settlement transaction starts. -/
def autoResolveMarkStmt (st : DbState) (predictionId : Nat) (outcome : Pos)
    (source : String) : DbState :=
  markPredictionResolved st predictionId outcome source "auto-resolver"

/-- One market's pass of `resolveReadyPredictions` after the oracle returned
an outcome: the auto-committed market update followed by the settlement
transaction (resolve-predictions.js lines 236-247). -/
def autoResolveOne (st : DbState) (predictionId : Nat) (outcome : Pos)
    (source : String) : DbState × SettlementReport :=
  processBetsForPrediction (autoResolveMarkStmt st predictionId outcome source)
    predictionId outcome

/-- `SELECT * FROM predictions WHERE status='closed' AND outcome IS NULL AND
resolves_at <= NOW()` (resolve-predictions.js lines 198-204). -/
def readyPredictions (st : DbState) (now : Nat) : List Prediction :=
  st.predictions.filter (fun p =>
    p.status == "closed" && p.outcome.isNone && decide (p.resolves_at ≤ now))

/-- The sync adapter's winner credit (src/routes/kalshi.js lines 496-501):
`balance = balance + tokensWon`, `total_won = total_won + tokensWon` — the
full payout, not the Settlement Engine's net profit. -/
def adapterCreditWinner (a : Account) (tokensWon : Nat) : Account :=
  { a with balance := a.balance + (tokensWon : Int),
           total_won := a.total_won + (tokensWon : Int) }

/-- The sync adapter's loser update (kalshi.js lines 505-510). -/
def adapterRecordLoss (a : Account) (tokensWagered : Nat) : Account :=
  { a with total_lost := a.total_lost + (tokensWagered : Int) }

/-- `SELECT * FROM kalshi_bets WHERE kalshi_ticker = $1 AND status='active'`. -/
def activeKalshiBetsOn (st : DbState) (ticker : String) : List KalshiBet :=
  st.kalshi_bets.filter (fun b => b.kalshi_ticker == ticker && b.status == "active")

/-- First statement of the sync loop for one bet (kalshi.js lines 487-492):
`UPDATE kalshi_bets SET status, tokens_won, kalshi_status='finalized',
resolved_at WHERE id`. -/
def kalshiSettleBetStmt (bet : KalshiBet) (outcome : Pos) (st : DbState) : DbState :=
  { st with kalshi_bets := st.kalshi_bets.map (fun b =>
      if b.id == bet.id then
        { b with status := if bet.position = outcome then "won" else "lost",
                 tokens_won := if bet.position = outcome then bet.potential_payout else 0,
                 kalshi_status := "finalized" }
      else b) }

/-- Second statement of the sync loop for one bet (kalshi.js lines 495-511):
the direct ledger write. -/
def kalshiLedgerStmt (bet : KalshiBet) (outcome : Pos) (st : DbState) : DbState :=
  if bet.position = outcome then
    { st with
      user_tokens := updateAccount st.user_tokens bet.user_email
        (fun a => adapterCreditWinner a bet.potential_payout) }
  else
    { st with
      user_tokens := updateAccount st.user_tokens bet.user_email
        (fun a => adapterRecordLoss a bet.tokens_wagered) }

/-- The statements the sync route issues for one finalized market, in program
order, over the snapshot of active bets it read first.  Each element is an
independent `pool.query`, i.e. its own commit point. -/
def kalshiSyncStmts (st0 : DbState) (ticker : String) (outcome : Pos) :
    List (DbState → DbState) :=
  (activeKalshiBetsOn st0 ticker).flatMap
    (fun b => [kalshiSettleBetStmt b outcome, kalshiLedgerStmt b outcome])

/-- Sequential execution of auto-committed statements. -/
def runStmts (fs : List (DbState → DbState)) (st : DbState) : DbState :=
  fs.foldl (fun s f => f s) st

/-- POST `/api/kalshi/sync-resolutions` restricted to one market whose oracle
read returned outcome `outcome` (kalshi.js lines 460-520), run to
completion. -/
def kalshiSyncResolveMarket (st : DbState) (ticker : String) (outcome : Pos) :
    DbState :=
  runStmts (kalshiSyncStmts st ticker outcome) st

/-- State at the `k`-th commit point of the sync pass: the route wraps nothing
in a transaction, so the state after any statement prefix is durable and
observable. -/
def kalshiSyncPrefixRun (st : DbState) (ticker : String) (outcome : Pos)
    (k : Nat) : DbState :=
  runStmts ((kalshiSyncStmts st ticker outcome).take k) st

/-- The sync route's per-market gate (kalshi.js lines 471-474): settle only
when the oracle reports the market finalized with a non-null result. -/
def kalshiSyncMarket (st : DbState) (ticker : String) (mkt : KalshiMarket) :
    DbState :=
  if mkt.status == "finalized" || mkt.result.isSome then
    match mkt.result with
    | some outcome => kalshiSyncResolveMarket st ticker outcome
    | none => st
  else st

/-- `SELECT * FROM payout_requests WHERE id = $1`. -/
def findPayoutRequest (st : DbState) (payoutId : Nat) : Option PayoutRequest :=
  st.payout_requests.find? (fun r => r.id == payoutId)

/-- The write statements of the payout-request transaction (src/routes/
alpaca.js lines 888-901): debit the balance and insert the pending request.
`usd_cents` embeds `(tokens * TOKENS_TO_USD_RATE).toFixed(2)` (rate 0.004
dollars per token) as rounded cents. -/
def requestPayoutCommit (st : DbState) (email : String) (tokensAmount : Nat)
    (method destination : String) : DbState × PayoutRequest :=
  let payout : PayoutRequest := {
    id := nextPayoutId st.payout_requests
    user_email := email
    tokens_amount := tokensAmount
    usd_cents := (tokensAmount * 4 + 5) / 10
    payout_method := method
    payout_destination := destination
    status := "pending"
    reviewed_by := ""
    transaction_reference := ""
    rejection_reason := "" }
  ( { st with
      user_tokens := updateAccount st.user_tokens email
        (fun a => { a with balance := a.balance - (tokensAmount : Int) }),
      payout_requests := st.payout_requests ++ [payout] },
    payout )

/-- POST `/api/predictions/payout/request` (src/routes/alpaca.js lines
851-918): one transaction that debits the balance and inserts the pending
request together. -/
def requestPayout (st : DbState) (email : String) (tokensAmount : Nat)
    (method destination : String) : Except Err (DbState × PayoutRequest) :=
  if email == "" || tokensAmount == 0 || method == "" || destination == "" then
    .error .missingFields
  else if !(method == "zelle" || method == "paypal") then .error .invalidMethod
  else if tokensAmount < 1000 then .error .payoutBelowMinimum
  else
    match lookupAccount st.user_tokens email with
    | none => .error .userNotFound
    | some user =>
      if user.balance < (tokensAmount : Int) then .error .insufficientFunds
      else .ok (requestPayoutCommit st email tokensAmount method destination)

/-- Observable state after the payout request route (COMMIT or ROLLBACK). -/
def requestPayoutRun (st : DbState) (email : String) (tokensAmount : Nat)
    (method destination : String) : DbState :=
  match requestPayout st email tokensAmount method destination with
  | .ok (st', _) => st'
  | .error _ => st

/-- First statement of the rejected branch of `/admin/process-payout`
(alpaca.js lines 1092-1104): read the request — whatever its current status —
and credit `tokens_amount` back to the user. -/
def processPayoutRefundStmt (st : DbState) (payoutId : Nat) : DbState :=
  match findPayoutRequest st payoutId with
  | none => st
  | some payout =>
    { st with
      user_tokens := updateAccount st.user_tokens payout.user_email
        (fun a => { a with balance := a.balance + (payout.tokens_amount : Int) }) }

/-- Second statement (alpaca.js lines 1107-1117): write the review columns. -/
def processPayoutUpdateStmt (st : DbState) (payoutId : Nat)
    (status adminEmail txRef reason : String) : DbState :=
  { st with payout_requests := st.payout_requests.map (fun r =>
      if r.id == payoutId then
        { r with status := status, reviewed_by := adminEmail,
                 transaction_reference := txRef, rejection_reason := reason }
      else r) }

/-- POST `/api/predictions/admin/process-payout` (src/routes/alpaca.js lines
1083-1127): status validation, then — with no shared transaction — the refund
statement (rejected branch only) followed by the review update. -/
def processPayout (st : DbState) (payoutId : Nat)
    (adminEmail status txRef reason : String) : Except Err DbState :=
  if !(status == "approved" || status == "completed" || status == "rejected") then
    .error .invalidStatus
  else
    let st1 := if status == "rejected" then processPayoutRefundStmt st payoutId else st
    .ok (processPayoutUpdateStmt st1 payoutId status adminEmail txRef reason)

/-- Observable state after the process-payout route. -/
def processPayoutRun (st : DbState) (payoutId : Nat)
    (adminEmail status txRef reason : String) : DbState :=
  match processPayout st payoutId adminEmail status txRef reason with
  | .ok st' => st'
  | .error _ => st

/-- `getOrCreateTokenAccount` (src/routes/alpaca.js lines 304-322). -/
def getOrCreateTokenAccount (st : DbState) (email : String) : DbState × Account :=
  match lookupAccount st.user_tokens email with
  | some a => (st, a)
  | none =>
    let a : Account := { user_email := email, balance := 0,
                         total_purchased := 0, total_won := 0, total_lost := 0 }
    ({ st with user_tokens := st.user_tokens ++ [a] }, a)

/-- The Stripe webhook's funds-in credit (src/routes/alpaca.js lines
447-453): `balance += tokens`, `total_purchased += tokens`. -/
def purchaseCreditStmt (st : DbState) (email : String) (tokensToAdd : Nat) :
    DbState :=
  { st with user_tokens := updateAccount st.user_tokens email (fun a =>
      { a with balance := a.balance + (tokensToAdd : Int),
               total_purchased := a.total_purchased + (tokensToAdd : Int) }) }

/-! ## Generic lemmas about the embedded table operations -/

/-- A keyed `UPDATE` commutes with `SELECT … WHERE` on the same key predicate:
updating the rows a predicate selects maps `find?` through the update. -/
theorem find?_mapIf {α : Type} (p : α → Bool) (f : α → α) (l : List α)
    (hpf : ∀ a, p (f a) = p a) :
    (l.map (fun a => if p a then f a else a)).find? p = (l.find? p).map f := by
  induction l with
  | nil => rfl
  | cons a t ih =>
    by_cases h : p a = true
    · rw [List.map_cons, if_pos h, List.find?_cons_of_pos _ (by rw [hpf]; exact h),
        List.find?_cons_of_pos _ h]
      rfl
    · rw [List.map_cons, if_neg h, List.find?_cons_of_neg _ (by simpa using h),
        List.find?_cons_of_neg _ (by simpa using h), ih]

/-- Keyed account update seen through lookup at the same key. -/
theorem lookupAccount_updateAccount (l : List Account) (k : String)
    (f : Account → Account) (hf : ∀ a, (f a).user_email = a.user_email) :
    lookupAccount (updateAccount l k f) k = (lookupAccount l k).map f := by
  unfold lookupAccount updateAccount
  exact find?_mapIf (fun a => a.user_email == k) f l (fun a => by simp [hf])

/-- Keyed account updates do not change the key column. -/
theorem map_user_email_updateAccount (l : List Account) (k : String)
    (f : Account → Account) (hf : ∀ a, (f a).user_email = a.user_email) :
    (updateAccount l k f).map Account.user_email = l.map Account.user_email := by
  induction l with
  | nil => rfl
  | cons a t ih =>
    unfold updateAccount at ih ⊢
    rw [List.map_cons, List.map_cons, List.map_cons]
    by_cases h : a.user_email = k
    · rw [if_pos (by simp [beq_iff_eq, h]), hf, ih]
    · rw [if_neg (by simp [beq_iff_eq, h]), ih]

/-- With no duplicate keys, a row with the looked-up key is the lookup result. -/
theorem lookupAccount_mem_of_nodup (l : List Account) (k : String) (a : Account)
    (hn : (l.map Account.user_email).Nodup) (ha : a ∈ l) (hk : a.user_email = k) :
    lookupAccount l k = some a := by
  induction l with
  | nil => cases ha
  | cons x t ih =>
    simp only [List.map_cons, List.nodup_cons] at hn
    rcases List.mem_cons.mp ha with rfl | hat
    · unfold lookupAccount
      rw [List.find?_cons_of_pos _ (by simp [beq_iff_eq, hk])]
    · by_cases hx : x.user_email = k
      · exact absurd (by rw [hx, ← hk]; exact List.mem_map_of_mem Account.user_email hat)
          hn.1
      · unfold lookupAccount at *
        rw [List.find?_cons_of_neg _ (by simp [beq_iff_eq, hx])]
        exact ih hn.2 hat

/-- With no duplicate keys, every row of an updated table is an untouched
original row or the update applied to the looked-up row. -/
theorem mem_updateAccount_nodup (l : List Account) (k : String)
    (f : Account → Account) (hn : (l.map Account.user_email).Nodup)
    (b : Account) (hb : b ∈ updateAccount l k f) :
    b ∈ l ∨ ∃ u, lookupAccount l k = some u ∧ b = f u := by
  unfold updateAccount at hb
  rcases List.mem_map.mp hb with ⟨a, hal, hba⟩
  by_cases h : a.user_email = k
  · right
    refine ⟨a, lookupAccount_mem_of_nodup l k a hn hal h, ?_⟩
    rw [← hba, if_pos (by simp [beq_iff_eq, h])]
  · left
    rw [← hba, if_neg (by simp [beq_iff_eq, h])]
    exact hal

/-- Balance non-negativity survives any update whose row function preserves
it pointwise (credits, counter bumps). -/
theorem nonneg_updateAccount_pointwise (l : List Account) (k : String)
    (f : Account → Account) (hf : ∀ a, 0 ≤ a.balance → 0 ≤ (f a).balance)
    (h : ∀ a ∈ l, 0 ≤ a.balance) : ∀ a ∈ updateAccount l k f, 0 ≤ a.balance := by
  intro b hb
  unfold updateAccount at hb
  rcases List.mem_map.mp hb with ⟨a, hal, hba⟩
  by_cases hk : a.user_email = k
  · rw [← hba, if_pos (by simp [beq_iff_eq, hk])]
    exact hf a (h a hal)
  · rw [← hba, if_neg (by simp [beq_iff_eq, hk])]
    exact h a hal

/-- A guarded debit keeps every balance non-negative, provided keys are
unique (so the balance that was checked is the balance that is debited). -/
theorem nonneg_updateAccount_debit (l : List Account) (k : String) (amt : Int)
    (hn : (l.map Account.user_email).Nodup) (u : Account)
    (hu : lookupAccount l k = some u) (hamt : amt ≤ u.balance)
    (h : ∀ a ∈ l, 0 ≤ a.balance) :
    ∀ a ∈ updateAccount l k (fun a => { a with balance := a.balance - amt }),
      0 ≤ a.balance := by
  intro b hb
  rcases mem_updateAccount_nodup l k _ hn b hb with hbl | ⟨u', hu', rfl⟩
  · exact h b hbl
  · rw [hu] at hu'
    injection hu' with e
    subst e
    simp only
    omega

/-! ## Success-shape lemmas: what a COMMIT tells us about the checks -/

/-- A committed internal bet passed every guard, and its effects are exactly
`placeBetCommit` on the looked-up market and account. -/
theorem placeBet_ok {st : DbState} {now : Nat} {email : String} {pid : Nat}
    {pos : Pos} {amt : Nat} {st' : DbState} {bet : Bet}
    (h : placeBet st now email pid pos amt = .ok (st', bet)) :
    ∃ prediction user,
      st.predictions.find? (fun p => p.id == pid) = some prediction ∧
      lookupAccount st.user_tokens email = some user ∧
      (amt : Int) ≤ user.balance ∧
      (st', bet) = placeBetCommit st prediction email pid pos amt ∧
      prediction.status = "open" ∧ ¬ prediction.closes_at < now ∧
      prediction.min_bet ≤ amt ∧ amt ≤ prediction.max_bet ∧
      (st.user_bets.any (fun b =>
        b.prediction_id == pid && b.user_email == email)) = false := by
  unfold placeBet at h
  repeat' split at h
  all_goals try exact Except.noConfusion h
  rename_i hmiss hinv oP prediction hfind hstat hcl hmin hmax hdup oA user hu hbal
  refine ⟨prediction, user, hfind, hu, by omega, ?_, ?_, hcl, by omega, by omega, by
    simpa using hdup⟩
  · injection h with h9
    exact h9.symm
  · simpa using hstat

/-- A committed Kalshi bet passed the balance and duplicate guards and the
fixed 10-token minimum — there is no maximum-bet guard to pass. -/
theorem kalshiPlaceBet_ok {st : DbState} {market? : Option KalshiMarket}
    {email ticker : String} {pos : Pos} {amt : Nat} {st' : DbState}
    {bet : KalshiBet}
    (h : kalshiPlaceBet st market? email ticker pos amt = .ok (st', bet)) :
    ∃ user,
      lookupAccount st.user_tokens email = some user ∧
      (amt : Int) ≤ user.balance ∧ 10 ≤ amt ∧
      st'.user_tokens = updateAccount st.user_tokens email
        (fun a => { a with balance := a.balance - (amt : Int) }) ∧
      st'.kalshi_bets = st.kalshi_bets ++ [bet] ∧
      st'.user_bets = st.user_bets ∧
      st'.predictions = st.predictions ∧
      st'.payout_requests = st.payout_requests ∧
      bet.user_email = email ∧ bet.kalshi_ticker = ticker ∧
      bet.status = "active" ∧ bet.tokens_wagered = amt ∧
      (st.kalshi_bets.any (fun b =>
        b.kalshi_ticker == ticker && b.user_email == email)) = false := by
  unfold kalshiPlaceBet at h
  repeat' split at h
  all_goals try exact Except.noConfusion h
  all_goals simp only [Bool.not_eq_true] at *
  all_goals simp only [Except.ok.injEq, kalshiBetCommit] at h
  all_goals injection h with h1 h2
  all_goals subst h1
  all_goals subst h2
  all_goals exact ⟨_, by assumption, by omega, by omega, rfl, rfl, rfl, rfl,
    rfl, rfl, rfl, rfl, rfl, by assumption⟩

/-- A committed payout request passed the balance guard and the 1000-token
minimum, and its effects are exactly `requestPayoutCommit`. -/
theorem requestPayout_ok {st : DbState} {email : String} {tokensAmount : Nat}
    {method destination : String} {st' : DbState} {pr : PayoutRequest}
    (h : requestPayout st email tokensAmount method destination = .ok (st', pr)) :
    ∃ user,
      lookupAccount st.user_tokens email = some user ∧
      (tokensAmount : Int) ≤ user.balance ∧ 1000 ≤ tokensAmount ∧
      (st', pr) = requestPayoutCommit st email tokensAmount method destination := by
  unfold requestPayout at h
  repeat' split at h
  all_goals try exact Except.noConfusion h
  rename_i hmiss hmeth hmin oA user hu hbal
  refine ⟨user, hu, by omega, by omega, ?_⟩
  injection h with h9
  exact h9.symm

/-! ## Concrete rows and states used by witnesses and counterexamples -/

/-- A funded account, as after a 1000-token purchase. -/
def wAccount : Account :=
  { user_email := "u", balance := 1000, total_purchased := 1000,
    total_won := 0, total_lost := 0 }

/-- An open internal market: the spec's scenario market (2.0 multipliers,
bounds 10 and 500). -/
def wPrediction : Prediction :=
  { id := 1, status := "open", outcome := none, yes_payout_multiplier := 2,
    no_payout_multiplier := 2, min_bet := 10, max_bet := 500, closes_at := 100,
    resolves_at := 200, resolution_source := "", resolved_by := "",
    total_yes_tokens := 0, total_no_tokens := 0, total_bettors := 0 }

/-- Base state: one funded account, one open market, no bets. -/
def wState : DbState :=
  { user_tokens := [wAccount], predictions := [wPrediction], user_bets := [],
    kalshi_bets := [], payout_requests := [] }

/-- An open Kalshi market with a 50-cent yes ask (even odds). -/
def wKalshiMarket : KalshiMarket :=
  { status := "open", result := none, yes_ask := some 50,
    event_ticker := "E", title := "T" }

/-- A rich account row for exercising the missing Kalshi maximum-bet check. -/
def wRichAccount : Account :=
  { user_email := "u", balance := 20000, total_purchased := 20000,
    total_won := 0, total_lost := 0 }

/-- A rich state for exercising the missing Kalshi maximum-bet check. -/
def wRichState : DbState :=
  { user_tokens := [wRichAccount], predictions := [], user_bets := [],
    kalshi_bets := [], payout_requests := [] }

/-! ## C4 — bet placement debits exactly the wager and rolls back on failure -/

/-- C4: for every successful placeBet call (internal or Kalshi route) the
balance afterwards is the balance before minus `tokensWagered`; every rejected
call leaves the whole store exactly as it was.  Concurrency appears here as
the serial execution of whole transactions, which is what the source's
row-level `FOR UPDATE` locks enforce. -/
theorem C4_placeBet_balance :
    (∀ st now email pid pos amt,
      ((placeBet st now email pid pos amt).isOk = true →
        balanceOf (placeBetRun st now email pid pos amt) email
          = (balanceOf st email).map (fun b => b - (amt : Int)))
      ∧ ((placeBet st now email pid pos amt).isOk = false →
        placeBetRun st now email pid pos amt = st))
    ∧ (∀ st mkt email ticker pos amt,
      ((kalshiPlaceBet st mkt email ticker pos amt).isOk = true →
        balanceOf (kalshiPlaceBetRun st mkt email ticker pos amt) email
          = (balanceOf st email).map (fun b => b - (amt : Int)))
      ∧ ((kalshiPlaceBet st mkt email ticker pos amt).isOk = false →
        kalshiPlaceBetRun st mkt email ticker pos amt = st)) := by
  constructor
  · intro st now email pid pos amt
    constructor
    · intro hok
      cases hres : placeBet st now email pid pos amt with
      | error e => rw [hres] at hok; simp [Except.isOk, Except.toBool] at hok
      | ok p =>
        obtain ⟨st', bet⟩ := p
        obtain ⟨prediction, user, hfind, hu, hbal, hcommit, -, -, -, -, -⟩ :=
          placeBet_ok hres
        unfold placeBetRun
        rw [hres]
        have h1 : st' = (placeBetCommit st prediction email pid pos amt).1 :=
          congrArg Prod.fst hcommit
        rw [h1]
        unfold balanceOf
        simp only [placeBetCommit]
        rw [lookupAccount_updateAccount st.user_tokens email
          (fun a => { a with balance := a.balance - (amt : Int) }) (fun a => rfl), hu]
        simp
    · intro hfail
      cases hres : placeBet st now email pid pos amt with
      | ok p => rw [hres] at hfail; simp [Except.isOk, Except.toBool] at hfail
      | error e => unfold placeBetRun; rw [hres]
  · intro st mkt email ticker pos amt
    constructor
    · intro hok
      cases hres : kalshiPlaceBet st mkt email ticker pos amt with
      | error e => rw [hres] at hok; simp [Except.isOk, Except.toBool] at hok
      | ok p =>
        obtain ⟨st', bet⟩ := p
        obtain ⟨user, hu, hbal, -, htok, -, -, -, -, -, -, -, -, -⟩ :=
          kalshiPlaceBet_ok hres
        unfold kalshiPlaceBetRun
        rw [hres]
        unfold balanceOf
        rw [htok, lookupAccount_updateAccount st.user_tokens email
          (fun a => { a with balance := a.balance - (amt : Int) }) (fun a => rfl), hu]
        simp
    · intro hfail
      cases hres : kalshiPlaceBet st mkt email ticker pos amt with
      | ok p => rw [hres] at hfail; simp [Except.isOk, Except.toBool] at hfail
      | error e => unfold kalshiPlaceBetRun; rw [hres]

/-- C4 witness: a successful 100-token bet moves the balance from 1000 to
900, and a rejected bet (below the 10-token minimum) leaves the state
untouched. -/
theorem C4_witness :
    ((placeBet wState 5 "u" 1 Pos.yes 100).isOk = true
      ∧ balanceOf (placeBetRun wState 5 "u" 1 Pos.yes 100) "u"
          = (balanceOf wState "u").map (fun b => b - (100 : Int)))
    ∧ ((placeBet wState 5 "u" 1 Pos.no 9).isOk = false
      ∧ placeBetRun wState 5 "u" 1 Pos.no 9 = wState) :=
  ⟨⟨by decide, (C4_placeBet_balance.1 wState 5 "u" 1 Pos.yes 100).1 (by decide)⟩,
   ⟨by decide, (C4_placeBet_balance.1 wState 5 "u" 1 Pos.no 9).2 (by decide)⟩⟩

/-! ## C10 — bet bounds: exact on the internal route, no maximum on Kalshi -/

/-- C10 counterexample: the claim says a bet of `maxBet + 1` is rejected on
all bet-placement paths.  The Kalshi route advertises `max_bet = 10000`
(`transformKalshiMarket`, src/routes/kalshi.js line 99) but its bet handler
never checks a maximum, so a 10001-token bet commits. -/
theorem C10_counterexample :
    (kalshiPlaceBet wRichState (some wKalshiMarket) "u" "TICK" Pos.yes
      10001).isOk = true ∧ 10000 < 10001 := by
  exact ⟨by decide, by decide⟩

/-- C10 (amended): on the internal route a bet of exactly `minBet` or exactly
`maxBet` commits and `minBet - 1` or `maxBet + 1` is rejected with the
corresponding bound error (stated for `2 ≤ minBet`, since a zero amount is
caught earlier by the missing-fields validation); the Kalshi route enforces
only its fixed 10-token minimum and no maximum at all. -/
theorem C10_bet_bounds :
    (∀ st now email pid pos (prediction : Prediction) user,
      email ≠ "" → pid ≠ 0 →
      st.predictions.find? (fun p => p.id == pid) = some prediction →
      prediction.status = "open" → ¬ prediction.closes_at < now →
      2 ≤ prediction.min_bet → prediction.min_bet ≤ prediction.max_bet →
      (st.user_bets.any (fun b =>
        b.prediction_id == pid && b.user_email == email)) = false →
      lookupAccount st.user_tokens email = some user →
      (prediction.max_bet + 1 : Int) ≤ user.balance →
      (placeBet st now email pid pos prediction.min_bet).isOk = true
      ∧ (placeBet st now email pid pos prediction.max_bet).isOk = true
      ∧ placeBet st now email pid pos (prediction.min_bet - 1)
          = .error .belowMinBet
      ∧ placeBet st now email pid pos (prediction.max_bet + 1)
          = .error .aboveMaxBet)
    ∧ (∀ st mkt email ticker pos user (amount : Nat),
      email ≠ "" → ticker ≠ "" →
      (mkt.status = "open" ∨ mkt.status = "active") →
      lookupAccount st.user_tokens email = some user →
      (amount : Int) ≤ user.balance →
      (st.kalshi_bets.any (fun b =>
        b.kalshi_ticker == ticker && b.user_email == email)) = false →
      10 ≤ amount →
      (kalshiPlaceBet st (some mkt) email ticker pos amount).isOk = true)
    ∧ (∀ st mkt email ticker pos,
      email ≠ "" → ticker ≠ "" →
      kalshiPlaceBet st (some mkt) email ticker pos 9
        = .error .belowKalshiMin) := by
  refine ⟨?_, ?_, ?_⟩
  · intro st now email pid pos prediction user hem hpid hfind hstat hcl hmin2
      hminmax hdup hu hbal
    refine ⟨?_, ?_, ?_, ?_⟩
    · unfold placeBet
      rw [if_neg (by simp [hem, hpid]; try omega)]
      rw [if_neg (by omega)]
      simp only [hfind]
      rw [if_neg (by simp [hstat])]
      rw [if_neg hcl]
      rw [if_neg (by omega)]
      rw [if_neg (by omega)]
      rw [if_neg (by simp [hdup])]
      simp only [hu]
      rw [if_neg (by omega)]
      rfl
    · unfold placeBet
      rw [if_neg (by simp [hem, hpid]; try omega)]
      rw [if_neg (by omega)]
      simp only [hfind]
      rw [if_neg (by simp [hstat])]
      rw [if_neg hcl]
      rw [if_neg (by omega)]
      rw [if_neg (by omega)]
      rw [if_neg (by simp [hdup])]
      simp only [hu]
      rw [if_neg (by omega)]
      rfl
    · unfold placeBet
      rw [if_neg (by simp [hem, hpid]; try omega)]
      rw [if_neg (by omega)]
      simp only [hfind]
      rw [if_neg (by simp [hstat])]
      rw [if_neg hcl]
      rw [if_pos (by omega)]
    · unfold placeBet
      rw [if_neg (by simp [hem, hpid]; try omega)]
      rw [if_neg (by omega)]
      simp only [hfind]
      rw [if_neg (by simp [hstat])]
      rw [if_neg hcl]
      rw [if_neg (by omega)]
      rw [if_pos (by omega)]
  · intro st mkt email ticker pos user amount hem ht hstat hu hbal hdup h10
    unfold kalshiPlaceBet
    rw [if_neg (by simp [hem, ht]; try omega)]
    rw [if_neg (by omega)]
    simp only []
    rw [if_neg (by rcases hstat with h | h <;> simp [h])]
    simp only [hu]
    rw [if_neg (by omega)]
    rw [if_neg (by simp [hdup])]
    rfl
  · intro st mkt email ticker pos hem ht
    unfold kalshiPlaceBet
    rw [if_neg (by simp [hem, ht])]
    rw [if_pos (by omega)]

/-- C10 witness: on the concrete open market (bounds 10 and 500) the four
internal boundary outcomes, plus a 10-token Kalshi bet commit and a 9-token
Kalshi rejection. -/
theorem C10_witness :
    ((placeBet wState 5 "u" 1 Pos.yes 10).isOk = true
      ∧ (placeBet wState 5 "u" 1 Pos.yes 500).isOk = true
      ∧ placeBet wState 5 "u" 1 Pos.yes 9 = .error .belowMinBet
      ∧ placeBet wState 5 "u" 1 Pos.yes 501 = .error .aboveMaxBet)
    ∧ (kalshiPlaceBet wState (some wKalshiMarket) "u" "TICK" Pos.no 10).isOk
        = true
    ∧ kalshiPlaceBet wState (some wKalshiMarket) "u" "TICK" Pos.no 9
        = .error .belowKalshiMin := by
  refine ⟨?_, ?_, ?_⟩
  · have h := C10_bet_bounds.1 wState 5 "u" 1 Pos.yes wPrediction wAccount
      (by decide) (by decide) (by decide) (by decide) (by decide) (by decide)
      (by decide) (by decide) (by decide) (by decide)
    exact h
  · exact C10_bet_bounds.2.1 wState wKalshiMarket "u" "TICK" Pos.no wAccount 10
      (by decide) (by decide) (by decide) (by decide) (by decide) (by decide)
      (by decide)
  · exact C10_bet_bounds.2.2 wState wKalshiMarket "u" "TICK" Pos.no
      (by decide) (by decide)

/-! ## C8 and C9 — payout requests: debit on creation, credit on rejection -/

/-- The review-columns update preserves the request row key, so a later read
of the same request sees the same `user_email` and `tokens_amount`. -/
theorem findPayoutRequest_updateStmt (st : DbState) (pid : Nat)
    (status adminEmail txRef reason : String) :
    findPayoutRequest (processPayoutUpdateStmt st pid status adminEmail txRef
      reason) pid
      = (findPayoutRequest st pid).map (fun r =>
          { r with status := status, reviewed_by := adminEmail,
                   transaction_reference := txRef,
                   rejection_reason := reason }) := by
  unfold findPayoutRequest processPayoutUpdateStmt
  exact find?_mapIf (fun (r : PayoutRequest) => r.id == pid) _ _
    (fun r => by simp)

/-- Crediting a refund: balance seen through the refund statement. -/
theorem balance_processPayoutRefundStmt (st : DbState) (pid : Nat)
    (r : PayoutRequest) (hfind : findPayoutRequest st pid = some r) :
    (processPayoutRefundStmt st pid).user_tokens
      = updateAccount st.user_tokens r.user_email
          (fun a => { a with balance := a.balance + (r.tokens_amount : Int) }) := by
  unfold processPayoutRefundStmt
  rw [hfind]

/-- A rejected review is the refund statement followed by the review-columns
update. -/
theorem processPayoutRun_rejected (st : DbState) (payoutId : Nat)
    (adm tr re : String) :
    processPayoutRun st payoutId adm "rejected" tr re
      = processPayoutUpdateStmt (processPayoutRefundStmt st payoutId) payoutId
          "rejected" adm tr re := by
  unfold processPayoutRun processPayout
  rw [if_neg (by simp)]
  simp

/-- Balance effect of one rejected review: the route reads the request —
whatever its current status — and credits `tokens_amount` to its user. -/
theorem balanceOf_rejected_run (st : DbState) (payoutId : Nat)
    (r : PayoutRequest) (admin txRef reason : String)
    (hfind : findPayoutRequest st payoutId = some r) :
    balanceOf (processPayoutRun st payoutId admin "rejected" txRef reason)
        r.user_email
      = (balanceOf st r.user_email).map
          (fun b => b + (r.tokens_amount : Int)) := by
  rw [processPayoutRun_rejected]
  unfold balanceOf
  have htok : (processPayoutUpdateStmt (processPayoutRefundStmt st payoutId)
      payoutId "rejected" admin txRef reason).user_tokens
      = (processPayoutRefundStmt st payoutId).user_tokens := rfl
  rw [htok, balance_processPayoutRefundStmt st payoutId r hfind,
    lookupAccount_updateAccount st.user_tokens r.user_email
      (fun a => { a with balance := a.balance + (r.tokens_amount : Int) })
      (fun a => rfl)]
  simp only [Option.map_map]
  cases lookupAccount st.user_tokens r.user_email <;> rfl

/-- C8: creating a payout request debits `tokensAmount` in the same atomic
transaction that inserts the pending request, and a rejected review credits
`tokens_amount` back to the requester. -/
theorem C8_payout_request_lifecycle :
    (∀ st email tokens method dest st' pr,
      requestPayout st email tokens method dest = .ok (st', pr) →
      balanceOf st' email = (balanceOf st email).map (fun b => b - (tokens : Int))
      ∧ st'.payout_requests = st.payout_requests ++ [pr]
      ∧ pr.tokens_amount = tokens ∧ pr.status = "pending"
      ∧ pr.user_email = email)
    ∧ (∀ st payoutId r admin txRef reason,
      findPayoutRequest st payoutId = some r →
      balanceOf (processPayoutRun st payoutId admin "rejected" txRef reason)
          r.user_email
        = (balanceOf st r.user_email).map
            (fun b => b + (r.tokens_amount : Int))) := by
  constructor
  · intro st email tokens method dest st' pr h
    obtain ⟨user, hu, hbal, hmin, hcommit⟩ := requestPayout_ok h
    have h1 : st' = (requestPayoutCommit st email tokens method dest).1 :=
      congrArg Prod.fst hcommit
    have h2 : pr = (requestPayoutCommit st email tokens method dest).2 :=
      congrArg Prod.snd hcommit
    subst h1
    subst h2
    refine ⟨?_, rfl, rfl, rfl, rfl⟩
    unfold balanceOf
    simp only [requestPayoutCommit]
    rw [lookupAccount_updateAccount st.user_tokens email
      (fun a => { a with balance := a.balance - (tokens : Int) }) (fun a => rfl)]
    simp only [Option.map_map]
    cases lookupAccount st.user_tokens email <;> rfl
  · intro st payoutId r admin txRef reason hfind
    exact balanceOf_rejected_run st payoutId r admin txRef reason hfind

/-- C8 witness: a 1000-token request drops the balance from 1000 to 0 and a
rejected review credits the 1000 tokens back. -/
theorem C8_witness :
    (requestPayout wState "u" 1000 "paypal" "dest").isOk = true
    ∧ balanceOf (requestPayoutRun wState "u" 1000 "paypal" "dest") "u" = some 0
    ∧ balanceOf (processPayoutRun (requestPayoutRun wState "u" 1000 "paypal"
        "dest") 1 "admin" "rejected" "" "refused") "u" = some 1000 := by
  refine ⟨by decide, by decide, ?_⟩
  have h := C8_payout_request_lifecycle.2
    (requestPayoutRun wState "u" 1000 "paypal" "dest") 1
    ((requestPayoutCommit wState "u" 1000 "paypal" "dest").2) "admin" ""
    "refused" (by decide)
  have h9 : balanceOf (processPayoutRun (requestPayoutRun wState "u" 1000
      "paypal" "dest") 1 "admin" "rejected" "" "refused") "u"
      = (balanceOf (requestPayoutRun wState "u" 1000 "paypal" "dest")
          "u").map (fun b => b + ((1000 : Nat) : Int)) := h
  rw [h9]
  decide

/-- C9: the rejected review is not idempotent — it reads the request without
checking its current status and credits `tokens_amount` each time, so two
rejected reviews of the same request credit twice. -/
theorem C9_double_rejection (st : DbState) (payoutId : Nat) (r : PayoutRequest)
    (a1 a2 t1 t2 x1 x2 : String)
    (hfind : findPayoutRequest st payoutId = some r) :
    balanceOf (processPayoutRun (processPayoutRun st payoutId a1 "rejected" t1
        x1) payoutId a2 "rejected" t2 x2) r.user_email
      = (balanceOf st r.user_email).map
          (fun b => b + (r.tokens_amount : Int) + (r.tokens_amount : Int)) := by
  have hfind1 : findPayoutRequest (processPayoutRun st payoutId a1 "rejected"
      t1 x1) payoutId
      = (findPayoutRequest st payoutId).map (fun q =>
          { q with status := "rejected", reviewed_by := a1,
                   transaction_reference := t1, rejection_reason := x1 }) := by
    rw [processPayoutRun_rejected, findPayoutRequest_updateStmt]
    have h0 : findPayoutRequest (processPayoutRefundStmt st payoutId) payoutId
        = findPayoutRequest st payoutId := by
      unfold processPayoutRefundStmt
      cases hq : findPayoutRequest st payoutId with
      | none => exact hq
      | some q => exact hq
    rw [h0]
  rw [hfind] at hfind1
  have h2 := balanceOf_rejected_run
    (processPayoutRun st payoutId a1 "rejected" t1 x1) payoutId _ a2 t2 x2
    hfind1
  have h1 := balanceOf_rejected_run st payoutId r a1 t1 x1 hfind
  have h2x : balanceOf (processPayoutRun (processPayoutRun st payoutId a1
      "rejected" t1 x1) payoutId a2 "rejected" t2 x2) r.user_email
      = (balanceOf (processPayoutRun st payoutId a1 "rejected" t1 x1)
          r.user_email).map (fun b => b + (r.tokens_amount : Int)) := h2
  rw [h2x, h1]
  cases balanceOf st r.user_email <;> simp

/-- C9 witness: rejecting the same 1000-token request twice moves the balance
from 0 back up to 2000 — 1000 more than the account ever paid in. -/
theorem C9_witness :
    balanceOf (processPayoutRun (processPayoutRun (requestPayoutRun wState "u"
        1000 "paypal" "dest") 1 "admin" "rejected" "" "no") 1 "admin2"
        "rejected" "" "no") "u" = some 2000 := by
  have h := C9_double_rejection (requestPayoutRun wState "u" 1000 "paypal"
    "dest") 1 ((requestPayoutCommit wState "u" 1000 "paypal" "dest").2)
    "admin" "admin2" "" "" "no" "no" (by decide)
  have h2 : balanceOf (processPayoutRun (processPayoutRun (requestPayoutRun
      wState "u" 1000 "paypal" "dest") 1 "admin" "rejected" "" "no") 1
      "admin2" "rejected" "" "no") "u"
      = (balanceOf (requestPayoutRun wState "u" 1000 "paypal" "dest")
          "u").map (fun b => b + ((1000 : Nat) : Int) + ((1000 : Nat) : Int)) := h
  rw [h2]
  decide

/-! ## Shared counterexample rows: states a failed settlement leaves behind -/

/-- Account with nothing in it yet. -/
def cxZeroAccount : Account :=
  { user_email := "u", balance := 0, total_purchased := 0, total_won := 0,
    total_lost := 0 }

/-- A 100-token yes wager at 2.0, still active. -/
def cxActiveBet : Bet :=
  { id := 1, user_email := "u", prediction_id := 1, position := Pos.yes,
    tokens_wagered := 100, potential_payout := 200, payout_multiplier := 2,
    status := "active", tokens_won := 0, payout_processed := false }

/-- The market of `wState`, already resolved yes. -/
def cxResolvedPrediction : Prediction :=
  { wPrediction with status := "resolved", outcome := some Pos.yes }

/-- A resolved market that still carries an active wager — exactly the state
the auto-resolver leaves behind when its settlement transaction fails after
the market update committed. -/
def cxResolvedState : DbState :=
  { user_tokens := [cxZeroAccount], predictions := [cxResolvedPrediction],
    user_bets := [cxActiveBet], kalshi_bets := [], payout_requests := [] }

/-- The market of `wState`, past its close and awaiting resolution. -/
def cxClosedPrediction : Prediction :=
  { wPrediction with status := "closed" }

/-- A closed market with one active wager, ready for the auto-resolver. -/
def cxClosedState : DbState :=
  { user_tokens := [cxZeroAccount], predictions := [cxClosedPrediction],
    user_bets := [cxActiveBet], kalshi_bets := [], payout_requests := [] }

/-- An active 100-token Kalshi wager on yes at 2.0 for user `u`. -/
def kcxBet : KalshiBet :=
  { id := 1, user_email := "u", kalshi_ticker := "T", event_ticker := "E",
    market_title := "M", position := Pos.yes, tokens_wagered := 100,
    potential_payout := 200, payout_multiplier := 2, status := "active",
    kalshi_status := "open", tokens_won := 0 }

/-- One empty account holding one active Kalshi wager. -/
def kcxState : DbState :=
  { user_tokens := [cxZeroAccount], predictions := [], user_bets := [],
    kalshi_bets := [kcxBet], payout_requests := [] }

/-- Empty account for user `A`. -/
def kcxAccountA : Account :=
  { user_email := "A", balance := 0, total_purchased := 0, total_won := 0,
    total_lost := 0 }

/-- Empty account for user `B`. -/
def kcxAccountB : Account :=
  { user_email := "B", balance := 0, total_purchased := 0, total_won := 0,
    total_lost := 0 }

/-- User `A` wager on the Kalshi market `T`. -/
def kcxBetA : KalshiBet := { kcxBet with user_email := "A" }

/-- User `B` wager on the same market. -/
def kcxBetB : KalshiBet := { kcxBet with id := 2, user_email := "B" }

/-- Two winning wagers by different users on one Kalshi market. -/
def kcxTwoWinnerState : DbState :=
  { user_tokens := [kcxAccountA, kcxAccountB], predictions := [],
    user_bets := [], kalshi_bets := [kcxBetA, kcxBetB],
    payout_requests := [] }

/-! ## C1 — the AlreadyResolved guard exists on one of the two paths only -/

/-- C1 counterexample: `manualResolve` never checks the current status.  On a
market already resolved (here with a wager the earlier settlement missed) it
does not fail with AlreadyResolved — it succeeds, rewrites the market row and
settles the wager, crediting 200 tokens. -/
theorem C1_counterexample :
    (findPrediction cxResolvedState 1).map Prediction.status = some "resolved"
    ∧ balanceOf cxResolvedState "u" = some 0
    ∧ balanceOf ((manualResolve cxResolvedState 1 Pos.yes "admin" "redo").1)
        "u" = some 200 := by
  exact ⟨by decide, by decide, by decide⟩

/-- C1 (amended): the admin HTTP resolve route rejects an already-resolved
market with AlreadyResolved and rolls back, leaving the store untouched;
`manualResolve` has no such guard — it always proceeds, and leaves every
account untouched only when no wager of the market is still active. -/
theorem C1_already_resolved_guard :
    (∀ st id outcome adminEmail source prediction,
      adminEmail ≠ "" →
      findPrediction st id = some prediction →
      prediction.status = "resolved" →
      adminResolve st id outcome adminEmail source = .error .alreadyResolved
      ∧ adminResolveRun st id outcome adminEmail source = st)
    ∧ (∀ st pid outcome adminEmail source,
      activeBetsOn st pid = [] →
      ((manualResolve st pid outcome adminEmail source).1).user_tokens
        = st.user_tokens
      ∧ ((manualResolve st pid outcome adminEmail source).1).user_bets
        = st.user_bets) := by
  constructor
  · intro st id outcome adminEmail source prediction hadmin hfind hstat
    have herr : adminResolve st id outcome adminEmail source
        = .error .alreadyResolved := by
      unfold adminResolve
      rw [if_neg (by simp [hadmin])]
      simp only [hfind]
      rw [if_pos (by simp [hstat])]
    refine ⟨herr, ?_⟩
    unfold adminResolveRun
    rw [herr]
  · intro st pid outcome adminEmail source h
    unfold manualResolve processBetsForPrediction
    have h1 : activeBetsOn (markPredictionResolved st pid outcome source
        adminEmail) pid = [] := h
    simp only [h1, List.foldl_nil]
    exact ⟨rfl, rfl⟩

/-- C1 witness: the guard fires on the concrete resolved market and rolls
back; `manualResolve` on a market with no bets leaves the ledger alone. -/
theorem C1_witness :
    (adminResolve cxResolvedState 1 Pos.yes "admin" "src"
        = .error .alreadyResolved
      ∧ adminResolveRun cxResolvedState 1 Pos.yes "admin" "src"
          = cxResolvedState)
    ∧ ((manualResolve wState 1 Pos.no "admin" "src").1).user_tokens
        = wState.user_tokens :=
  ⟨C1_already_resolved_guard.1 cxResolvedState 1 Pos.yes "admin" "src"
      cxResolvedPrediction (by decide) (by decide) (by decide),
   (C1_already_resolved_guard.2 wState 1 Pos.no "admin" "src" (by decide)).1⟩

/-! ## C2 — settlement atomicity holds for the admin route only -/

/-- C2 counterexample.  First half: after the auto-resolver market-update
statement — its own `pool.query`, committed before the settlement transaction
starts — the market is resolved while its wager is still active.  Second
half: after three of the four independent statements of the Kalshi sync pass
over two winning wagers, both wagers are marked won but only the first user
was credited — a partial payout, observable because the route has no
transaction. -/
theorem C2_counterexample :
    ((findPrediction (autoResolveMarkStmt cxClosedState 1 Pos.yes "src")
        1).map Prediction.status = some "resolved"
      ∧ (autoResolveMarkStmt cxClosedState 1 Pos.yes "src").user_bets.map
          Bet.status = ["active"])
    ∧ ((kalshiSyncPrefixRun kcxTwoWinnerState "T" Pos.yes 3).kalshi_bets.map
          KalshiBet.status = ["won", "won"]
      ∧ balanceOf (kalshiSyncPrefixRun kcxTwoWinnerState "T" Pos.yes 3) "A"
          = some 200
      ∧ balanceOf (kalshiSyncPrefixRun kcxTwoWinnerState "T" Pos.yes 3) "B"
          = some 0) := by
  exact ⟨⟨by decide, by decide⟩, by decide, by decide, by decide⟩

/-- C2 (amended): only the admin resolve route is atomic — any rejection
rolls its transaction back and the observable state is exactly the state
before the call.  The auto-resolver and the Kalshi sync path commit
intermediate states (see the counterexample). -/
theorem C2_admin_resolve_rollback : ∀ st id outcome adminEmail source,
    (adminResolve st id outcome adminEmail source).isOk = false →
    adminResolveRun st id outcome adminEmail source = st := by
  intro st id o a s h
  cases hres : adminResolve st id o a s with
  | ok p => rw [hres] at h; simp [Except.isOk, Except.toBool] at h
  | error e => unfold adminResolveRun; rw [hres]

/-- C2 witness: a rejected resolve (already resolved) leaves the concrete
state bit-for-bit unchanged. -/
theorem C2_witness :
    (adminResolve cxResolvedState 1 Pos.no "admin" "x").isOk = false
    ∧ adminResolveRun cxResolvedState 1 Pos.no "admin" "x" = cxResolvedState :=
  ⟨by decide,
   C2_admin_resolve_rollback cxResolvedState 1 Pos.no "admin" "x" (by decide)⟩

/-! ## C3 — per-wager settlement effects on the three paths -/

/-- C3 counterexample: on the Kalshi sync path a winning wager bumps
`total_won` by the full potential payout (200), not by the net profit
`potentialPayout - tokensWagered` (100) the claim states for all three
paths. -/
theorem C3_counterexample :
    (lookupAccount (kalshiSyncResolveMarket kcxState "T" Pos.yes).user_tokens
        "u").map Account.total_won = some 200
    ∧ ((200 : Int) ≠ (200 : Int) - (100 : Int)) := by
  exact ⟨by decide, by decide⟩

/-- C3 (amended): per settled wager — on the admin route and the
auto-resolver (both run `settleOneBet`): a winner's row becomes won with
`tokens_won = potential_payout`, the balance is credited by the payout and
`total_won` grows by the net profit; a loser's row becomes lost with zero
`tokens_won`, the balance is untouched and `total_lost` grows by the stake.
On the Kalshi sync path the same holds except that `total_won` grows by the
full payout instead of the net profit. -/
theorem C3_settlement_effects :
    (∀ st outcome bet user, bet.position = outcome →
      lookupAccount st.user_tokens bet.user_email = some user →
      (settleOneBet st outcome bet).user_bets
        = settleBetRow st.user_bets bet.id true bet.potential_payout
      ∧ lookupAccount (settleOneBet st outcome bet).user_tokens bet.user_email
        = some { user with
            balance := user.balance + (bet.potential_payout : Int),
            total_won := user.total_won
              + ((bet.potential_payout : Int) - (bet.tokens_wagered : Int)) })
    ∧ (∀ st outcome bet user, bet.position ≠ outcome →
      lookupAccount st.user_tokens bet.user_email = some user →
      (settleOneBet st outcome bet).user_bets
        = settleBetRow st.user_bets bet.id false 0
      ∧ lookupAccount (settleOneBet st outcome bet).user_tokens bet.user_email
        = some { user with
            total_lost := user.total_lost + (bet.tokens_wagered : Int) })
    ∧ (∀ st outcome (bet : KalshiBet) user, bet.position = outcome →
      lookupAccount st.user_tokens bet.user_email = some user →
      (kalshiLedgerStmt bet outcome
          (kalshiSettleBetStmt bet outcome st)).kalshi_bets
        = st.kalshi_bets.map (fun b =>
            if b.id == bet.id then
              { b with status := "won", tokens_won := bet.potential_payout,
                       kalshi_status := "finalized" }
            else b)
      ∧ lookupAccount (kalshiLedgerStmt bet outcome
          (kalshiSettleBetStmt bet outcome st)).user_tokens bet.user_email
        = some { user with
            balance := user.balance + (bet.potential_payout : Int),
            total_won := user.total_won + (bet.potential_payout : Int) })
    ∧ (∀ st outcome (bet : KalshiBet) user, bet.position ≠ outcome →
      lookupAccount st.user_tokens bet.user_email = some user →
      (kalshiLedgerStmt bet outcome
          (kalshiSettleBetStmt bet outcome st)).kalshi_bets
        = st.kalshi_bets.map (fun b =>
            if b.id == bet.id then
              { b with status := "lost", tokens_won := 0,
                       kalshi_status := "finalized" }
            else b)
      ∧ lookupAccount (kalshiLedgerStmt bet outcome
          (kalshiSettleBetStmt bet outcome st)).user_tokens bet.user_email
        = some { user with
            total_lost := user.total_lost + (bet.tokens_wagered : Int) }) := by
  refine ⟨?_, ?_, ?_, ?_⟩
  · intro st outcome bet user hpos hu
    unfold settleOneBet
    rw [if_pos hpos]
    refine ⟨rfl, ?_⟩
    have hl : lookupAccount (updateAccount st.user_tokens bet.user_email
        (fun a => engineCreditWinner a bet.potential_payout
          bet.tokens_wagered)) bet.user_email
        = (lookupAccount st.user_tokens bet.user_email).map
            (fun a => engineCreditWinner a bet.potential_payout
              bet.tokens_wagered) :=
      lookupAccount_updateAccount _ _ _ (fun a => rfl)
    rw [hl, hu]
    rfl
  · intro st outcome bet user hpos hu
    unfold settleOneBet
    rw [if_neg hpos]
    refine ⟨rfl, ?_⟩
    have hl : lookupAccount (updateAccount st.user_tokens bet.user_email
        (fun a => engineRecordLoss a bet.tokens_wagered)) bet.user_email
        = (lookupAccount st.user_tokens bet.user_email).map
            (fun a => engineRecordLoss a bet.tokens_wagered) :=
      lookupAccount_updateAccount _ _ _ (fun a => rfl)
    rw [hl, hu]
    rfl
  · intro st outcome bet user hpos hu
    constructor
    · unfold kalshiLedgerStmt kalshiSettleBetStmt
      rw [if_pos hpos]
      simp only [if_pos hpos]
    · unfold kalshiLedgerStmt
      rw [if_pos hpos]
      have he : (kalshiSettleBetStmt bet outcome st).user_tokens
          = st.user_tokens := rfl
      rw [he]
      have hl : lookupAccount (updateAccount st.user_tokens bet.user_email
          (fun a => adapterCreditWinner a bet.potential_payout)) bet.user_email
          = (lookupAccount st.user_tokens bet.user_email).map
              (fun a => adapterCreditWinner a bet.potential_payout) :=
        lookupAccount_updateAccount _ _ _ (fun a => rfl)
      rw [hl, hu]
      rfl
  · intro st outcome bet user hpos hu
    constructor
    · unfold kalshiLedgerStmt kalshiSettleBetStmt
      rw [if_neg hpos]
      simp only [if_neg hpos]
    · unfold kalshiLedgerStmt
      rw [if_neg hpos]
      have he : (kalshiSettleBetStmt bet outcome st).user_tokens
          = st.user_tokens := rfl
      rw [he]
      have hl : lookupAccount (updateAccount st.user_tokens bet.user_email
          (fun a => adapterRecordLoss a bet.tokens_wagered)) bet.user_email
          = (lookupAccount st.user_tokens bet.user_email).map
              (fun a => adapterRecordLoss a bet.tokens_wagered) :=
        lookupAccount_updateAccount _ _ _ (fun a => rfl)
      rw [hl, hu]
      rfl

/-- C3 witness: a winning internal wager credits 200 with net profit 100; on
the Kalshi path a winning wager row becomes won with `tokens_won = 200` and
the account gains 200 on both balance and `total_won`, while a losing wager
row becomes lost with zero `tokens_won` and the stake lands in
`total_lost`. -/
theorem C3_witness :
    lookupAccount (settleOneBet kcxState Pos.yes cxActiveBet).user_tokens
        cxActiveBet.user_email
      = some { cxZeroAccount with
          balance := cxZeroAccount.balance + (cxActiveBet.potential_payout : Int),
          total_won := cxZeroAccount.total_won
            + ((cxActiveBet.potential_payout : Int)
                - (cxActiveBet.tokens_wagered : Int)) }
    ∧ ((kalshiLedgerStmt kcxBet Pos.yes
          (kalshiSettleBetStmt kcxBet Pos.yes kcxState)).kalshi_bets
        = kcxState.kalshi_bets.map (fun b =>
            if b.id == kcxBet.id then
              { b with status := "won", tokens_won := kcxBet.potential_payout,
                       kalshi_status := "finalized" }
            else b)
      ∧ lookupAccount (kalshiLedgerStmt kcxBet Pos.yes
          (kalshiSettleBetStmt kcxBet Pos.yes kcxState)).user_tokens
          kcxBet.user_email
        = some { cxZeroAccount with
            balance := cxZeroAccount.balance + (kcxBet.potential_payout : Int),
            total_won := cxZeroAccount.total_won
              + (kcxBet.potential_payout : Int) })
    ∧ ((kalshiLedgerStmt kcxBet Pos.no
          (kalshiSettleBetStmt kcxBet Pos.no kcxState)).kalshi_bets
        = kcxState.kalshi_bets.map (fun b =>
            if b.id == kcxBet.id then
              { b with status := "lost", tokens_won := 0,
                       kalshi_status := "finalized" }
            else b)
      ∧ lookupAccount (kalshiLedgerStmt kcxBet Pos.no
          (kalshiSettleBetStmt kcxBet Pos.no kcxState)).user_tokens
          kcxBet.user_email
        = some { cxZeroAccount with
            total_lost := cxZeroAccount.total_lost
              + (kcxBet.tokens_wagered : Int) }) :=
  ⟨(C3_settlement_effects.1 kcxState Pos.yes cxActiveBet cxZeroAccount
      (by decide) (by decide)).2,
   C3_settlement_effects.2.2.1 kcxState Pos.yes kcxBet cxZeroAccount
      (by decide) (by decide),
   C3_settlement_effects.2.2.2 kcxState Pos.no kcxBet cxZeroAccount
      (by decide) (by decide)⟩

/-! ## C5 — the sync adapter writes the ledger itself -/

/-- Modelled from the spec for the refinement comparison (the Outcome Sync
Adapter "never mutates the ledger directly, only invokes Settlement Engine"):
the account table the sync pass would produce if each wager went through the
Settlement Engine's per-wager ledger rule (`engineCreditWinner` /
`engineRecordLoss`) instead of the adapter's own statements. -/
def engineLedgerForKalshiBets (st : DbState) (ticker : String) (outcome : Pos) :
    List Account :=
  (activeKalshiBetsOn st ticker).foldl (fun accts b =>
    if b.position = outcome then
      updateAccount accts b.user_email
        (fun a => engineCreditWinner a b.potential_payout b.tokens_wagered)
    else
      updateAccount accts b.user_email
        (fun a => engineRecordLoss a b.tokens_wagered)) st.user_tokens

/-- C5 counterexample: on one winning wager the adapter's direct writes do
not equal the Settlement Engine's ledger rule — the adapter is not a
composition of Settlement Engine calls. -/
theorem C5_counterexample :
    (kalshiSyncResolveMarket kcxState "T" Pos.yes).user_tokens
      ≠ engineLedgerForKalshiBets kcxState "T" Pos.yes := by
  decide

/-- C5 (amended): the sync adapter mutates the ledger directly with inline
statements; per wager those writes agree with the Settlement Engine's rule on
the balance and on losing wagers, but credit the gross payout to `total_won`
where the engine credits the net profit. -/
theorem C5_adapter_ledger_vs_engine :
    ∀ a tokensWon tokensWagered,
      (adapterCreditWinner a tokensWon).balance
        = (engineCreditWinner a tokensWon tokensWagered).balance
      ∧ (adapterCreditWinner a tokensWon).total_lost
        = (engineCreditWinner a tokensWon tokensWagered).total_lost
      ∧ (adapterCreditWinner a tokensWon).total_won
        = (engineCreditWinner a tokensWon tokensWagered).total_won
            + (tokensWagered : Int)
      ∧ adapterRecordLoss a tokensWagered = engineRecordLoss a tokensWagered := by
  intro a p w
  refine ⟨rfl, rfl, ?_, rfl⟩
  unfold adapterCreditWinner engineCreditWinner
  simp only
  ring

/-! ## Operation sequences over the store, and the table invariants -/

/-- One embedded state-mutating operation: every route, script statement and
transaction of the source that writes the store, with rolled-back
transactions observable as the unchanged state.  `opKalshiSync` with index
`k` is the state at the k-th commit point of the sync pass — the route has no
transaction, so every statement prefix is durable. -/
inductive Op where
  | opGetOrCreate (email : String)
  | opPurchaseCredit (email : String) (tokens : Nat)
  | opPlaceBet (now : Nat) (email : String) (predictionId : Nat)
      (position : Pos) (amount : Nat)
  | opKalshiBet (market? : Option KalshiMarket) (email ticker : String)
      (position : Pos) (amount : Nat)
  | opRequestPayout (email : String) (tokens : Nat) (method dest : String)
  | opProcessPayout (payoutId : Nat) (adminEmail status txRef reason : String)
  | opAdminResolve (id : Nat) (outcome : Pos) (adminEmail source : String)
  | opManualResolve (id : Nat) (outcome : Pos) (adminEmail source : String)
  | opAutoResolveMark (id : Nat) (outcome : Pos) (source : String)
  | opProcessBets (id : Nat) (outcome : Pos)
  | opKalshiSync (ticker : String) (outcome : Pos) (k : Nat)

/-- Observable effect of one operation on the durable store. -/
def Op.step (st : DbState) : Op → DbState
  | .opGetOrCreate email => (getOrCreateTokenAccount st email).1
  | .opPurchaseCredit email tokens => purchaseCreditStmt st email tokens
  | .opPlaceBet now email pid pos amt => placeBetRun st now email pid pos amt
  | .opKalshiBet mkt email ticker pos amt =>
      kalshiPlaceBetRun st mkt email ticker pos amt
  | .opRequestPayout email tokens method dest =>
      requestPayoutRun st email tokens method dest
  | .opProcessPayout pid adm status txRef reason =>
      processPayoutRun st pid adm status txRef reason
  | .opAdminResolve id outcome adm source =>
      adminResolveRun st id outcome adm source
  | .opManualResolve id outcome adm source =>
      (manualResolve st id outcome adm source).1
  | .opAutoResolveMark id outcome source =>
      autoResolveMarkStmt st id outcome source
  | .opProcessBets id outcome => (processBetsForPrediction st id outcome).1
  | .opKalshiSync ticker outcome k => kalshiSyncPrefixRun st ticker outcome k

/-- A sequence of operations, applied in order. -/
def runOps (st : DbState) (ops : List Op) : DbState :=
  ops.foldl Op.step st

/-- Invariant: every account balance is at least zero. -/
def NonNegBalances (st : DbState) : Prop :=
  ∀ a ∈ st.user_tokens, 0 ≤ a.balance

/-- Invariant: the UNIQUE constraint on `user_tokens.user_email`. -/
def AccountKeysNodup (st : DbState) : Prop :=
  (st.user_tokens.map Account.user_email).Nodup

/-- Invariant: the unique index `idx_user_bets_unique` on
`(user_email, prediction_id)`. -/
def BetPairsNodup (st : DbState) : Prop :=
  (st.user_bets.map (fun b => (b.user_email, b.prediction_id))).Nodup

/-- Invariant: the unique index `idx_kalshi_bets_unique` on
`(user_email, kalshi_ticker)`. -/
def KalshiPairsNodup (st : DbState) : Prop :=
  (st.kalshi_bets.map (fun b => (b.user_email, b.kalshi_ticker))).Nodup

/-- All four table invariants together. -/
def WF (st : DbState) : Prop :=
  NonNegBalances st ∧ AccountKeysNodup st ∧ BetPairsNodup st
    ∧ KalshiPairsNodup st

/-- A keyed row update that does not touch the key leaves the key column of
the table unchanged. -/
theorem map_key_mapIf {α β : Type} (p : α → Bool) (f : α → α) (key : α → β)
    (l : List α) (hk : ∀ a, key (f a) = key a) :
    (l.map (fun a => if p a then f a else a)).map key = l.map key := by
  induction l with
  | nil => rfl
  | cons a t ih =>
    rw [List.map_cons, List.map_cons, List.map_cons]
    by_cases h : p a = true
    · rw [if_pos h, hk, ih]
    · rw [if_neg h, ih]

/-- Appending a row whose key is fresh keeps the key column duplicate-free. -/
theorem nodup_map_append_fresh {α β : Type} (key : α → β) (l : List α) (x : α)
    (hn : (l.map key).Nodup) (hx : key x ∉ l.map key) :
    ((l ++ [x]).map key).Nodup := by
  rw [List.map_append]
  simp only [List.map_cons, List.map_nil]
  rw [List.nodup_append]
  refine ⟨hn, List.nodup_singleton _, ?_⟩
  intro b hb hbx
  rcases List.mem_singleton.mp hbx with rfl
  exact hx hb

/-- The duplicate-bet check really means the new pair is fresh. -/
theorem bet_pair_fresh (bets : List Bet) (email : String) (pid : Nat)
    (h : (bets.any (fun b =>
      b.prediction_id == pid && b.user_email == email)) = false) :
    (email, pid) ∉ bets.map (fun b => (b.user_email, b.prediction_id)) := by
  intro hm
  rcases List.mem_map.mp hm with ⟨b, hb, hbe⟩
  have h2 := (List.any_eq_false.mp h) b hb
  have h3 : b.user_email = email ∧ b.prediction_id = pid := by
    have h4 := congrArg Prod.fst hbe
    have h5 := congrArg Prod.snd hbe
    exact ⟨h4, h5⟩
  simp [h3.1, h3.2] at h2

/-- The duplicate check of the Kalshi route, likewise. -/
theorem kalshi_pair_fresh (bets : List KalshiBet) (email ticker : String)
    (h : (bets.any (fun b =>
      b.kalshi_ticker == ticker && b.user_email == email)) = false) :
    (email, ticker) ∉ bets.map (fun b => (b.user_email, b.kalshi_ticker)) := by
  intro hm
  rcases List.mem_map.mp hm with ⟨b, hb, hbe⟩
  have h2 := (List.any_eq_false.mp h) b hb
  have h3 : b.user_email = email ∧ b.kalshi_ticker = ticker := by
    have h4 := congrArg Prod.fst hbe
    have h5 := congrArg Prod.snd hbe
    exact ⟨h4, h5⟩
  simp [h3.1, h3.2] at h2

/-- A failed account lookup means the key is not in the table. -/
theorem not_mem_keys_of_lookup_none (l : List Account) (k : String)
    (h : lookupAccount l k = none) : k ∉ l.map Account.user_email := by
  intro hm
  rcases List.mem_map.mp hm with ⟨a, ha, hak⟩
  have h2 := List.find?_eq_none.mp h a ha
  simp [hak] at h2

/-- Folding a list of state transformers that each preserve a property
preserves it. -/
theorem foldl_preserve {α : Type} (P : DbState → Prop)
    (f : DbState → α → DbState) (l : List α)
    (hf : ∀ s a, a ∈ l → P s → P (f s a)) (st : DbState) (hst : P st) :
    P (l.foldl f st) := by
  induction l generalizing st with
  | nil => exact hst
  | cons a t ih =>
    exact ih (fun s b hb => hf s b (List.mem_cons_of_mem a hb)) (f st a)
      (hf st a (List.mem_cons_self a t) hst)

/-- Key-column uniqueness survives a keyed account update. -/
theorem accountKeys_nodup_updateAccount (l : List Account) (k : String)
    (f : Account → Account) (hf : ∀ a, (f a).user_email = a.user_email)
    (h : (l.map Account.user_email).Nodup) :
    ((updateAccount l k f).map Account.user_email).Nodup := by
  rw [map_user_email_updateAccount l k f hf]
  exact h

/-- Key-pair uniqueness survives a row update that keeps the key fields. -/
theorem pairs_nodup_mapIf {α β : Type} (p : α → Bool) (f : α → α)
    (key : α → β) (l : List α) (hk : ∀ a, key (f a) = key a)
    (h : (l.map key).Nodup) :
    ((l.map (fun a => if p a then f a else a)).map key).Nodup := by
  rw [map_key_mapIf p f key l hk]
  exact h

/-- Settling one wager preserves the invariants: the credit and the loss
counter keep balances non-negative, and neither touches a key column. -/
theorem wf_settleOneBet (st : DbState) (outcome : Pos) (bet : Bet)
    (h : WF st) : WF (settleOneBet st outcome bet) := by
  obtain ⟨h1, h2, h3, h4⟩ := h
  unfold settleOneBet
  by_cases hpos : bet.position = outcome
  · rw [if_pos hpos]
    refine ⟨?_, ?_, ?_, h4⟩
    · exact nonneg_updateAccount_pointwise _ _ _
        (fun a ha => by
          show 0 ≤ a.balance + (bet.potential_payout : Int)
          omega) h1
    · exact accountKeys_nodup_updateAccount _ _ _ (fun a => rfl) h2
    · exact pairs_nodup_mapIf _ _ _ _ (fun b => rfl) h3
  · rw [if_neg hpos]
    refine ⟨?_, ?_, ?_, h4⟩
    · exact nonneg_updateAccount_pointwise _ _ _
        (fun a ha => by
          show 0 ≤ a.balance
          exact ha) h1
    · exact accountKeys_nodup_updateAccount _ _ _ (fun a => rfl) h2
    · exact pairs_nodup_mapIf _ _ _ _ (fun b => rfl) h3

/-- The settlement transaction preserves the invariants. -/
theorem wf_processBets (st : DbState) (pid : Nat) (outcome : Pos)
    (h : WF st) : WF ((processBetsForPrediction st pid outcome).1) :=
  foldl_preserve WF (fun s b => settleOneBet s outcome b)
    (activeBetsOn st pid) (fun s b _ hs => wf_settleOneBet s outcome b hs) st h

/-- The market-row update touches no invariant table. -/
theorem wf_markPredictionResolved (st : DbState) (pid : Nat) (outcome : Pos)
    (source resolvedBy : String) (h : WF st) :
    WF (markPredictionResolved st pid outcome source resolvedBy) := h

/-- The Kalshi row-settle statement preserves the invariants. -/
theorem wf_kalshiSettleBetStmt (bet : KalshiBet) (outcome : Pos)
    (st : DbState) (h : WF st) : WF (kalshiSettleBetStmt bet outcome st) := by
  obtain ⟨h1, h2, h3, h4⟩ := h
  refine ⟨h1, h2, h3, ?_⟩
  exact pairs_nodup_mapIf _ _ _ _ (fun b => rfl) h4

/-- The Kalshi direct ledger statement preserves the invariants. -/
theorem wf_kalshiLedgerStmt (bet : KalshiBet) (outcome : Pos) (st : DbState)
    (h : WF st) : WF (kalshiLedgerStmt bet outcome st) := by
  obtain ⟨h1, h2, h3, h4⟩ := h
  unfold kalshiLedgerStmt
  by_cases hpos : bet.position = outcome
  · rw [if_pos hpos]
    refine ⟨?_, ?_, h3, h4⟩
    · exact nonneg_updateAccount_pointwise _ _ _
        (fun a ha => by
          show 0 ≤ a.balance + (bet.potential_payout : Int)
          omega) h1
    · exact accountKeys_nodup_updateAccount _ _ _ (fun a => rfl) h2
  · rw [if_neg hpos]
    refine ⟨?_, ?_, h3, h4⟩
    · exact nonneg_updateAccount_pointwise _ _ _
        (fun a ha => by
          show 0 ≤ a.balance
          exact ha) h1
    · exact accountKeys_nodup_updateAccount _ _ _ (fun a => rfl) h2

/-- Every statement the sync pass issues preserves the invariants. -/
theorem wf_kalshiSyncStmts (st0 : DbState) (ticker : String) (outcome : Pos) :
    ∀ g ∈ kalshiSyncStmts st0 ticker outcome, ∀ s, WF s → WF (g s) := by
  intro g hg s hs
  unfold kalshiSyncStmts at hg
  rcases List.mem_flatMap.mp hg with ⟨b, hb, hgb⟩
  rcases List.mem_cons.mp hgb with rfl | hgb
  · exact wf_kalshiSettleBetStmt b outcome s hs
  rcases List.mem_cons.mp hgb with rfl | hgb
  · exact wf_kalshiLedgerStmt b outcome s hs
  cases hgb

/-- Any commit-point prefix of the sync pass preserves the invariants. -/
theorem wf_kalshiSyncPrefixRun (st : DbState) (ticker : String)
    (outcome : Pos) (k : Nat) (h : WF st) :
    WF (kalshiSyncPrefixRun st ticker outcome k) := by
  unfold kalshiSyncPrefixRun runStmts
  refine foldl_preserve WF (fun s (f : DbState → DbState) => f s) _ ?_ st h
  intro s g hg hs
  exact wf_kalshiSyncStmts st ticker outcome g
    (List.take_subset _ _ hg) s hs

/-- Lazy account creation preserves the invariants: the new row has balance
zero and a key the table did not contain. -/
theorem wf_getOrCreate (st : DbState) (email : String) (h : WF st) :
    WF ((getOrCreateTokenAccount st email).1) := by
  obtain ⟨h1, h2, h3, h4⟩ := h
  unfold getOrCreateTokenAccount
  cases hl : lookupAccount st.user_tokens email with
  | some a => exact ⟨h1, h2, h3, h4⟩
  | none =>
    refine ⟨?_, ?_, h3, h4⟩
    · intro a ha
      rcases List.mem_append.mp ha with ha | ha
      · exact h1 a ha
      · rcases List.mem_singleton.mp ha with rfl
        show (0 : Int) ≤ 0
        omega
    · unfold AccountKeysNodup
      exact nodup_map_append_fresh _ _ _ h2 (not_mem_keys_of_lookup_none _ _ hl)

/-- The funds-in credit preserves the invariants. -/
theorem wf_purchaseCreditStmt (st : DbState) (email : String) (tokens : Nat)
    (h : WF st) : WF (purchaseCreditStmt st email tokens) := by
  obtain ⟨h1, h2, h3, h4⟩ := h
  refine ⟨?_, ?_, h3, h4⟩
  · exact nonneg_updateAccount_pointwise _ _ _
      (fun a ha => by
        show 0 ≤ a.balance + (tokens : Int)
        omega) h1
  · exact accountKeys_nodup_updateAccount _ _ _ (fun a => rfl) h2

/-- The refund statement preserves the invariants. -/
theorem wf_processPayoutRefundStmt (st : DbState) (pid : Nat) (h : WF st) :
    WF (processPayoutRefundStmt st pid) := by
  obtain ⟨h1, h2, h3, h4⟩ := h
  unfold processPayoutRefundStmt
  cases hf : findPayoutRequest st pid with
  | none => exact ⟨h1, h2, h3, h4⟩
  | some r =>
    refine ⟨?_, ?_, h3, h4⟩
    · exact nonneg_updateAccount_pointwise _ _ _
        (fun a ha => by
          show 0 ≤ a.balance + (r.tokens_amount : Int)
          omega) h1
    · exact accountKeys_nodup_updateAccount _ _ _ (fun a => rfl) h2

/-- The payout-review route preserves the invariants. -/
theorem wf_processPayoutRun (st : DbState) (pid : Nat)
    (adm status txRef reason : String) (h : WF st) :
    WF (processPayoutRun st pid adm status txRef reason) := by
  unfold processPayoutRun processPayout
  by_cases hv : (!(status == "approved" || status == "completed"
      || status == "rejected")) = true
  · rw [if_pos hv]
    exact h
  · rw [if_neg hv]
    by_cases hr : (status == "rejected") = true
    · rw [if_pos hr]
      exact wf_processPayoutRefundStmt st pid h
    · rw [if_neg hr]
      exact h

/-- A committed admin resolve is the market write followed by the settlement
fold over the snapshot of active wagers. -/
theorem adminResolve_ok {st : DbState} {id : Nat} {outcome : Pos}
    {adm source : String} {st' : DbState} {n : Nat}
    (h : adminResolve st id outcome adm source = .ok (st', n)) :
    ∃ prediction src, findPrediction st id = some prediction ∧
      st' = (activeBetsOn (markPredictionResolved st id outcome src adm)
          id).foldl (fun s b => settleOneBet s outcome b)
        (markPredictionResolved st id outcome src adm) := by
  unfold adminResolve at h
  repeat' split at h
  all_goals try exact Except.noConfusion h
  all_goals simp only [Except.ok.injEq, Prod.mk.injEq] at h
  all_goals rename_i hadm oP prediction hfind hres hsrc
  all_goals exact ⟨prediction, _, hfind, h.1.symm⟩

/-- The admin resolve route preserves the invariants (rollback keeps the
state, and a commit is a settlement fold from a state with the same
tables). -/
theorem wf_adminResolveRun (st : DbState) (id : Nat) (outcome : Pos)
    (adm source : String) (h : WF st) :
    WF (adminResolveRun st id outcome adm source) := by
  cases hres : adminResolve st id outcome adm source with
  | error e => unfold adminResolveRun; rw [hres]; exact h
  | ok p =>
    obtain ⟨st', n⟩ := p
    obtain ⟨prediction, src, hfind, hst⟩ := adminResolve_ok hres
    unfold adminResolveRun
    rw [hres, hst]
    exact foldl_preserve WF (fun s b => settleOneBet s outcome b) _
      (fun s b _ hs => wf_settleOneBet s outcome b hs) _ h

/-- The internal bet route preserves the invariants: a rollback changes
nothing; a commit debits no more than the checked balance and inserts a wager
whose key pair the duplicate check proved fresh. -/
theorem wf_placeBetRun (st : DbState) (now : Nat) (email : String)
    (pid : Nat) (pos : Pos) (amt : Nat) (h : WF st) :
    WF (placeBetRun st now email pid pos amt) := by
  obtain ⟨h1, h2, h3, h4⟩ := h
  cases hres : placeBet st now email pid pos amt with
  | error e => unfold placeBetRun; rw [hres]; exact ⟨h1, h2, h3, h4⟩
  | ok p =>
    obtain ⟨st', bet⟩ := p
    obtain ⟨prediction, user, hfind, hu, hbal, hcommit, -, -, -, -, hdup⟩ :=
      placeBet_ok hres
    unfold placeBetRun
    rw [hres]
    have hst : st' = (placeBetCommit st prediction email pid pos amt).1 :=
      congrArg Prod.fst hcommit
    rw [hst]
    refine ⟨?_, ?_, ?_, h4⟩
    · exact nonneg_updateAccount_debit st.user_tokens email (amt : Int) h2
        user hu hbal h1
    · exact accountKeys_nodup_updateAccount _ _ _ (fun a => rfl) h2
    · refine nodup_map_append_fresh _ _ _ h3 ?_
      show (email, pid) ∉ st.user_bets.map
        (fun b => (b.user_email, b.prediction_id))
      exact bet_pair_fresh _ _ _ hdup
    
/-- The Kalshi bet route preserves the invariants. -/
theorem wf_kalshiPlaceBetRun (st : DbState) (mkt : Option KalshiMarket)
    (email ticker : String) (pos : Pos) (amt : Nat) (h : WF st) :
    WF (kalshiPlaceBetRun st mkt email ticker pos amt) := by
  obtain ⟨h1, h2, h3, h4⟩ := h
  cases hres : kalshiPlaceBet st mkt email ticker pos amt with
  | error e => unfold kalshiPlaceBetRun; rw [hres]; exact ⟨h1, h2, h3, h4⟩
  | ok p =>
    obtain ⟨st', bet⟩ := p
    obtain ⟨user, hu, hbal, -, htok, hkb, hub, -, -, hbe, hbt, -, -, hdup⟩ :=
      kalshiPlaceBet_ok hres
    unfold kalshiPlaceBetRun
    rw [hres]
    refine ⟨?_, ?_, ?_, ?_⟩
    · show ∀ a ∈ st'.user_tokens, 0 ≤ a.balance
      rw [htok]
      exact nonneg_updateAccount_debit st.user_tokens email (amt : Int) h2
        user hu hbal h1
    · show (st'.user_tokens.map Account.user_email).Nodup
      rw [htok]
      exact accountKeys_nodup_updateAccount _ _ _ (fun a => rfl) h2
    · show (st'.user_bets.map (fun b => (b.user_email, b.prediction_id))).Nodup
      rw [hub]
      exact h3
    · show (st'.kalshi_bets.map
        (fun b => (b.user_email, b.kalshi_ticker))).Nodup
      rw [hkb]
      refine nodup_map_append_fresh _ _ _ h4 ?_
      rw [hbe, hbt]
      exact kalshi_pair_fresh _ _ _ hdup

/-- The payout-request route preserves the invariants. -/
theorem wf_requestPayoutRun (st : DbState) (email : String) (tokens : Nat)
    (method dest : String) (h : WF st) :
    WF (requestPayoutRun st email tokens method dest) := by
  obtain ⟨h1, h2, h3, h4⟩ := h
  cases hres : requestPayout st email tokens method dest with
  | error e => unfold requestPayoutRun; rw [hres]; exact ⟨h1, h2, h3, h4⟩
  | ok p =>
    obtain ⟨st', pr⟩ := p
    obtain ⟨user, hu, hbal, hmin, hcommit⟩ := requestPayout_ok hres
    unfold requestPayoutRun
    rw [hres]
    have hst : st' = (requestPayoutCommit st email tokens method dest).1 :=
      congrArg Prod.fst hcommit
    rw [hst]
    refine ⟨?_, ?_, h3, h4⟩
    · exact nonneg_updateAccount_debit st.user_tokens email (tokens : Int) h2
        user hu hbal h1
    · exact accountKeys_nodup_updateAccount _ _ _ (fun a => rfl) h2

/-- Every embedded operation preserves the four table invariants. -/
theorem WF_step (st : DbState) (op : Op) (h : WF st) : WF (Op.step st op) := by
  cases op with
  | opGetOrCreate email => exact wf_getOrCreate st email h
  | opPurchaseCredit email tokens => exact wf_purchaseCreditStmt st email tokens h
  | opPlaceBet now email pid pos amt => exact wf_placeBetRun st now email pid pos amt h
  | opKalshiBet mkt email ticker pos amt =>
      exact wf_kalshiPlaceBetRun st mkt email ticker pos amt h
  | opRequestPayout email tokens method dest =>
      exact wf_requestPayoutRun st email tokens method dest h
  | opProcessPayout pid adm status txRef reason =>
      exact wf_processPayoutRun st pid adm status txRef reason h
  | opAdminResolve id outcome adm source =>
      exact wf_adminResolveRun st id outcome adm source h
  | opManualResolve id outcome adm source =>
      exact wf_processBets (markPredictionResolved st id outcome source adm)
        id outcome h
  | opAutoResolveMark id outcome source => exact h
  | opProcessBets id outcome => exact wf_processBets st id outcome h
  | opKalshiSync ticker outcome k =>
      exact wf_kalshiSyncPrefixRun st ticker outcome k h

/-- The invariants hold after any sequence of operations. -/
theorem WF_runOps (st : DbState) (ops : List Op) (h : WF st) :
    WF (runOps st ops) :=
  foldl_preserve WF Op.step ops (fun s op _ hs => WF_step s op hs) st h

/-- Builds the invariant bundle from its four decidable components. -/
theorem wf_of_parts (st : DbState)
    (h1 : ∀ a ∈ st.user_tokens, 0 ≤ a.balance)
    (h2 : (st.user_tokens.map Account.user_email).Nodup)
    (h3 : (st.user_bets.map (fun b => (b.user_email, b.prediction_id))).Nodup)
    (h4 : (st.kalshi_bets.map
      (fun b => (b.user_email, b.kalshi_ticker))).Nodup) :
    WF st := ⟨h1, h2, h3, h4⟩

/-! ## C6 — guarded debits and the non-negative balance invariant -/

/-- An account that cannot cover the smallest allowed wager or payout. -/
def wPoorAccount : Account :=
  { user_email := "u", balance := 5, total_purchased := 5, total_won := 0,
    total_lost := 0 }

/-- A state whose only account cannot cover any allowed debit. -/
def wPoorState : DbState :=
  { user_tokens := [wPoorAccount], predictions := [wPrediction],
    user_bets := [], kalshi_bets := [], payout_requests := [] }

/-- C6: each of the three debit paths rejects with InsufficientFunds when the
balance is below the amount (all earlier guards passing), and every account
balance stays non-negative after any sequence of operations started from a
state satisfying the schema invariants. -/
theorem C6_insufficient_funds_and_nonneg :
    (∀ st now email pid pos (amt : Nat) prediction user,
      email ≠ "" → pid ≠ 0 → 1 ≤ amt →
      st.predictions.find? (fun p => p.id == pid) = some prediction →
      prediction.status = "open" → ¬ prediction.closes_at < now →
      prediction.min_bet ≤ amt → amt ≤ prediction.max_bet →
      (st.user_bets.any (fun b =>
        b.prediction_id == pid && b.user_email == email)) = false →
      lookupAccount st.user_tokens email = some user →
      user.balance < (amt : Int) →
      placeBet st now email pid pos amt = .error .insufficientFunds)
    ∧ (∀ st mkt email ticker pos (amount : Nat) user,
      email ≠ "" → ticker ≠ "" →
      (mkt.status = "open" ∨ mkt.status = "active") → 10 ≤ amount →
      lookupAccount st.user_tokens email = some user →
      user.balance < (amount : Int) →
      kalshiPlaceBet st (some mkt) email ticker pos amount
        = .error .insufficientFunds)
    ∧ (∀ st email (tokens : Nat) method dest user,
      email ≠ "" → dest ≠ "" →
      (method = "zelle" ∨ method = "paypal") → 1000 ≤ tokens →
      lookupAccount st.user_tokens email = some user →
      user.balance < (tokens : Int) →
      requestPayout st email tokens method dest
        = .error .insufficientFunds)
    ∧ (∀ st ops, WF st → NonNegBalances (runOps st ops)) := by
  refine ⟨?_, ?_, ?_, ?_⟩
  · intro st now email pid pos amt prediction user hem hpid h1 hfind hstat hcl
      hmin hmax hdup hu hlt
    unfold placeBet
    rw [if_neg (by simp [hem, hpid]; try omega)]
    rw [if_neg (by omega)]
    simp only [hfind]
    rw [if_neg (by simp [hstat])]
    rw [if_neg hcl]
    rw [if_neg (by omega)]
    rw [if_neg (by omega)]
    rw [if_neg (by simp [hdup])]
    simp only [hu]
    rw [if_pos hlt]
  · intro st mkt email ticker pos amount user hem ht hstat h10 hu hlt
    unfold kalshiPlaceBet
    rw [if_neg (by simp [hem, ht]; try omega)]
    rw [if_neg (by omega)]
    simp only []
    rw [if_neg (by rcases hstat with h | h <;> simp [h])]
    simp only [hu]
    rw [if_pos hlt]
  · intro st email tokens method dest user hem hdest hmeth h1000 hu hlt
    unfold requestPayout
    rw [if_neg (by rcases hmeth with h | h <;> simp [hem, hdest, h] <;> omega)]
    rw [if_neg (by rcases hmeth with h | h <;> simp [h])]
    rw [if_neg (by omega)]
    simp only [hu]
    rw [if_pos hlt]
  · intro st ops h
    exact (WF_runOps st ops h).1

/-- C6 witness: a 10-token bet, a 10-token Kalshi bet and a 1000-token payout
request against a 5-token balance each reject with InsufficientFunds, and a
concrete operation sequence (bet, resolve, payout round trip) keeps every
balance non-negative. -/
theorem C6_witness :
    placeBet wPoorState 5 "u" 1 Pos.yes 10 = .error .insufficientFunds
    ∧ kalshiPlaceBet wPoorState (some wKalshiMarket) "u" "T" Pos.no 10
        = .error .insufficientFunds
    ∧ requestPayout wPoorState "u" 1000 "zelle" "dest"
        = .error .insufficientFunds
    ∧ NonNegBalances (runOps wState
        [Op.opPlaceBet 5 "u" 1 Pos.yes 100,
         Op.opAdminResolve 1 Pos.yes "admin" "test",
         Op.opRequestPayout "u" 1000 "paypal" "dest",
         Op.opProcessPayout 1 "admin" "rejected" "" "no"]) := by
  refine ⟨?_, ?_, ?_, ?_⟩
  · exact C6_insufficient_funds_and_nonneg.1 wPoorState 5 "u" 1 Pos.yes 10
      wPrediction wPoorAccount (by decide) (by decide) (by decide)
      (by decide) (by decide) (by decide) (by decide) (by decide) (by decide)
      (by decide) (by decide)
  · exact C6_insufficient_funds_and_nonneg.2.1 wPoorState wKalshiMarket "u"
      "T" Pos.no 10 wPoorAccount (by decide) (by decide)
      (by decide) (by decide) (by decide) (by decide)
  · exact C6_insufficient_funds_and_nonneg.2.2.1 wPoorState "u" 1000 "zelle"
      "dest" wPoorAccount (by decide) (by decide)
      (by decide) (by decide) (by decide) (by decide)
  · exact C6_insufficient_funds_and_nonneg.2.2.2 wState _
      (wf_of_parts wState (by decide) (by decide) (by decide) (by decide))

/-! ## C7 — at most one wager per user and market -/

/-- A state where user `u` already has an internal wager on market 1 and a
Kalshi wager on ticker `T`. -/
def wDupState : DbState :=
  { user_tokens := [wAccount], predictions := [wPrediction],
    user_bets := [cxActiveBet], kalshi_bets := [kcxBet],
    payout_requests := [] }

/-- C7: a second bet by the same user on the same market never commits — it
is rejected as DuplicateBet when every other guard passes (on the Kalshi
route the balance check runs first, hence its extra hypotheses) — and the
uniqueness of (userKey, marketId) pairs, the embedded unique indexes, is an
invariant of every operation sequence. -/
theorem C7_unique_wager_per_market :
    (∀ st now email pid pos amt b0, b0 ∈ st.user_bets →
      b0.user_email = email → b0.prediction_id = pid →
      (placeBet st now email pid pos amt).isOk = false)
    ∧ (∀ st mkt email ticker pos amt b0, b0 ∈ st.kalshi_bets →
      b0.user_email = email → b0.kalshi_ticker = ticker →
      (kalshiPlaceBet st mkt email ticker pos amt).isOk = false)
    ∧ (∀ st now email pid pos (amt : Nat) prediction,
      email ≠ "" → pid ≠ 0 → 1 ≤ amt →
      st.predictions.find? (fun p => p.id == pid) = some prediction →
      prediction.status = "open" → ¬ prediction.closes_at < now →
      prediction.min_bet ≤ amt → amt ≤ prediction.max_bet →
      (∃ b0 ∈ st.user_bets, b0.user_email = email ∧ b0.prediction_id = pid) →
      placeBet st now email pid pos amt = .error .duplicateBet)
    ∧ (∀ st mkt email ticker pos (amount : Nat) user,
      email ≠ "" → ticker ≠ "" →
      (mkt.status = "open" ∨ mkt.status = "active") → 10 ≤ amount →
      lookupAccount st.user_tokens email = some user →
      (amount : Int) ≤ user.balance →
      (∃ b0 ∈ st.kalshi_bets, b0.user_email = email
        ∧ b0.kalshi_ticker = ticker) →
      kalshiPlaceBet st (some mkt) email ticker pos amount
        = .error .duplicateBet)
    ∧ (∀ st ops, WF st →
      BetPairsNodup (runOps st ops) ∧ KalshiPairsNodup (runOps st ops)) := by
  refine ⟨?_, ?_, ?_, ?_, ?_⟩
  · intro st now email pid pos amt b0 hb0 hbe hbp
    cases hres : placeBet st now email pid pos amt with
    | error e => rfl
    | ok p =>
      obtain ⟨st', bet⟩ := p
      obtain ⟨prediction, user, -, -, -, -, -, -, -, -, hdup⟩ :=
        placeBet_ok hres
      have h2 := (List.any_eq_false.mp hdup) b0 hb0
      simp [hbe, hbp] at h2
  · intro st mkt email ticker pos amt b0 hb0 hbe hbt
    cases hres : kalshiPlaceBet st mkt email ticker pos amt with
    | error e => rfl
    | ok p =>
      obtain ⟨st', bet⟩ := p
      obtain ⟨user, -, -, -, -, -, -, -, -, -, -, -, -, hdup⟩ :=
        kalshiPlaceBet_ok hres
      have h2 := (List.any_eq_false.mp hdup) b0 hb0
      simp [hbe, hbt] at h2
  · intro st now email pid pos amt prediction hem hpid h1 hfind hstat hcl
      hmin hmax hdup
    obtain ⟨b0, hb0, hbe, hbp⟩ := hdup
    unfold placeBet
    rw [if_neg (by simp [hem, hpid]; try omega)]
    rw [if_neg (by omega)]
    simp only [hfind]
    rw [if_neg (by simp [hstat])]
    rw [if_neg hcl]
    rw [if_neg (by omega)]
    rw [if_neg (by omega)]
    rw [if_pos (List.any_eq_true.mpr ⟨b0, hb0, by simp [hbe, hbp]⟩)]
  · intro st mkt email ticker pos amount user hem ht hstat h10 hu hbal hdup
    obtain ⟨b0, hb0, hbe, hbt⟩ := hdup
    unfold kalshiPlaceBet
    rw [if_neg (by simp [hem, ht]; try omega)]
    rw [if_neg (by omega)]
    simp only []
    rw [if_neg (by rcases hstat with h | h <;> simp [h])]
    simp only [hu]
    rw [if_neg (by omega)]
    rw [if_pos (List.any_eq_true.mpr ⟨b0, hb0, by simp [hbe, hbt]⟩)]
  · intro st ops h
    exact ⟨(WF_runOps st ops h).2.2.1, (WF_runOps st ops h).2.2.2⟩

/-- C7 witness: with an existing wager on the market, a second internal bet
and a second Kalshi bet are rejected as DuplicateBet, and a concrete
operation sequence keeps both uniqueness invariants. -/
theorem C7_witness :
    placeBet wDupState 5 "u" 1 Pos.no 50 = .error .duplicateBet
    ∧ kalshiPlaceBet wDupState (some wKalshiMarket) "u" "T" Pos.no 50
        = .error .duplicateBet
    ∧ BetPairsNodup (runOps wDupState
        [Op.opPlaceBet 5 "u" 1 Pos.no 50,
         Op.opKalshiBet (some wKalshiMarket) "u" "T" Pos.no 50,
         Op.opAdminResolve 1 Pos.yes "admin" "test"]) := by
  refine ⟨?_, ?_, ?_⟩
  · exact C7_unique_wager_per_market.2.2.1 wDupState 5 "u" 1 Pos.no 50
      wPrediction (by decide) (by decide) (by decide) (by decide) (by decide)
      (by decide) (by decide) (by decide)
      ⟨cxActiveBet, by decide, by decide, by decide⟩
  · exact C7_unique_wager_per_market.2.2.2.1 wDupState wKalshiMarket "u" "T"
      Pos.no 50 wAccount (by decide) (by decide) (by decide) (by decide)
      (by decide) (by decide) ⟨kcxBet, by decide, by decide, by decide⟩
  · exact (C7_unique_wager_per_market.2.2.2.2 wDupState _
      (wf_of_parts wDupState (by decide) (by decide) (by decide)
        (by decide))).1

end ApeHub